import Mathlib

set_option maxRecDepth 4000
set_option maxHeartbeats 1000000

/-!
# Verification of the dlovely-websocket frame codec and connection state machine

This file shallowly embeds the core of the `dlovely-websocket` library:
the frame codec (`src/frame.ts`), the per-connection frame extractor and
frame processor (`lib/Connect.ts`, i.e. `Connection`, and
`src/SocketConnect.ts`, i.e. `AppConnection`), the receive loop (`doRead`),
the default subprotocol selector (`Server._buildSelectProtocol` /
`SocketApp`), and the sign dispatcher (`SocketApp`).

Byte buffers are modelled as `List Nat` (each element one byte), JS strings
as `List Nat` of Unicode code points.  Fallible multi-byte reads return
`Option`.  JS `undefined`/`null`/string/object values of the `frameBuffer`
slot are modelled by the inductive `FBV`, preserving the source's
distinction between `undefined` and `null` (the `Connection` variant
compares the slot against `null` with strict equality while only ever
storing `undefined`, a string or an `InStream`).
-/

namespace WS

/-- `Buffer.readUInt16BE(i)`: big-endian 16-bit read, `none` when out of bounds. -/
def readUInt16BE (l : List Nat) (i : Nat) : Option Nat := do
  let a ← l[i]?
  let b ← l[i+1]?
  return a * 256 + b

/-- `Buffer.readUInt32BE(i)`: big-endian 32-bit read, `none` when out of bounds. -/
def readUInt32BE (l : List Nat) (i : Nat) : Option Nat := do
  let a ← l[i]?
  let b ← l[i+1]?
  let c ← l[i+2]?
  let d ← l[i+3]?
  return a * 2 ^ 24 + b * 2 ^ 16 + c * 2 ^ 8 + d

/-- `Buffer.writeUInt16BE(n)`: the two big-endian bytes of a 16-bit value. -/
def writeUInt16BE (n : Nat) : List Nat := [n / 256, n % 256]

/-- `Buffer.writeUInt32BE(n)`: the four big-endian bytes of a 32-bit value. -/
def writeUInt32BE (n : Nat) : List Nat :=
  [n / 2 ^ 24 % 256, n / 2 ^ 16 % 256, n / 2 ^ 8 % 256, n % 256]

/-! ## UTF-8 (`Buffer.from(string)` / `buffer.toString()`)

`utf8Encode` is the UTF-8 encoding of a sequence of Unicode code points
(`Buffer.from(str)`), `utf8Decode` the decoding with U+FFFD replacement on
error (`buf.toString()`). -/

/-- UTF-8 encoding of one code point. -/
def utf8EncodeChar (c : Nat) : List Nat :=
  if c < 0x80 then [c]
  else if c < 0x800 then [0xC0 + c / 64, 0x80 + c % 64]
  else if c < 0x10000 then
    [0xE0 + c / 4096, 0x80 + c / 64 % 64, 0x80 + c % 64]
  else
    [0xF0 + c / 0x40000, 0x80 + c / 4096 % 64, 0x80 + c / 64 % 64, 0x80 + c % 64]

/-- UTF-8 encoding of a code-point sequence (`Buffer.from(str)`). -/
def utf8Encode (s : List Nat) : List Nat := s.flatMap utf8EncodeChar

/-- Is `b` a UTF-8 continuation byte (`10xxxxxx`)? -/
def isCont (b : Nat) : Bool := 0x80 ≤ b ∧ b < 0xC0

/-- One UTF-8 decoding step: given a lead byte and the following bytes, the
decoded code point (U+FFFD on error) and the bytes left to decode. -/
def utf8DecodeStep (b : Nat) (rest : List Nat) : Nat × List Nat :=
  if b < 0x80 then (b, rest)
  else if b < 0xC2 then (0xFFFD, rest)
  else if b < 0xE0 then
    match rest with
    | c1 :: r =>
      if isCont c1 then ((b - 0xC0) * 64 + (c1 - 0x80), r) else (0xFFFD, c1 :: r)
    | [] => (0xFFFD, [])
  else if b < 0xF0 then
    match rest with
    | c1 :: c2 :: r =>
      if isCont c1 ∧ isCont c2 ∧ (b = 0xE0 → 0xA0 ≤ c1) ∧ (b = 0xED → c1 < 0xA0) then
        ((b - 0xE0) * 4096 + (c1 - 0x80) * 64 + (c2 - 0x80), r)
      else (0xFFFD, c1 :: c2 :: r)
    | r => (0xFFFD, r)
  else if b < 0xF5 then
    match rest with
    | c1 :: c2 :: c3 :: r =>
      if isCont c1 ∧ isCont c2 ∧ isCont c3 ∧
          (b = 0xF0 → 0x90 ≤ c1) ∧ (b = 0xF4 → c1 < 0x90) then
        ((b - 0xF0) * 0x40000 + (c1 - 0x80) * 4096 + (c2 - 0x80) * 64 + (c3 - 0x80), r)
      else (0xFFFD, c1 :: c2 :: c3 :: r)
    | r => (0xFFFD, r)
  else (0xFFFD, rest)

theorem utf8DecodeStep_length (b : Nat) (rest : List Nat) :
    (utf8DecodeStep b rest).2.length ≤ rest.length := by
  unfold utf8DecodeStep
  repeat' split
  all_goals simp_all [List.length]
  all_goals omega

/-- UTF-8 decoding with replacement (`buffer.toString()`); malformed input
yields U+FFFD for the offending byte. -/
def utf8Decode : List Nat → List Nat
  | [] => []
  | b :: rest =>
    (utf8DecodeStep b rest).1 :: utf8Decode (utf8DecodeStep b rest).2
termination_by l => l.length
decreasing_by
  simp only [List.length_cons]
  have := utf8DecodeStep_length b rest
  omega

/-- A valid Unicode scalar value: in range and not a surrogate. -/
def ValidCP (c : Nat) : Prop := c < 0x110000 ∧ ¬(0xD800 ≤ c ∧ c < 0xE000)

theorem utf8Decode_nil : utf8Decode [] = [] := by
  rw [utf8Decode.eq_def]

theorem utf8Decode_cons (b : Nat) (rest : List Nat) :
    utf8Decode (b :: rest) =
      (utf8DecodeStep b rest).1 :: utf8Decode (utf8DecodeStep b rest).2 := by
  rw [utf8Decode.eq_def]

theorem utf8Decode_step1 (b : Nat) (rest : List Nat) (h : b < 0x80) :
    utf8Decode (b :: rest) = b :: utf8Decode rest := by
  rw [utf8Decode_cons]
  simp [utf8DecodeStep, h]

theorem utf8Decode_step2 (b c1 : Nat) (rest : List Nat)
    (hb : 0xC2 ≤ b) (hb2 : b < 0xE0) (hc : isCont c1 = true) :
    utf8Decode (b :: c1 :: rest) = ((b - 0xC0) * 64 + (c1 - 0x80)) :: utf8Decode rest := by
  rw [utf8Decode_cons]
  rw [utf8DecodeStep, if_neg (by omega), if_neg (by omega), if_pos hb2]
  simp [hc]

theorem utf8Decode_step3 (b c1 c2 : Nat) (rest : List Nat)
    (hb : 0xE0 ≤ b) (hb2 : b < 0xF0) (hc1 : isCont c1 = true) (hc2 : isCont c2 = true)
    (h1 : b = 0xE0 → 0xA0 ≤ c1) (h2 : b = 0xED → c1 < 0xA0) :
    utf8Decode (b :: c1 :: c2 :: rest) =
      ((b - 0xE0) * 4096 + (c1 - 0x80) * 64 + (c2 - 0x80)) :: utf8Decode rest := by
  rw [utf8Decode_cons]
  rw [utf8DecodeStep, if_neg (by omega), if_neg (by omega), if_neg (by omega), if_pos hb2]
  simp only [hc1, hc2]
  simp only [true_and]
  rw [if_pos ⟨h1, h2⟩]

theorem utf8Decode_step4 (b c1 c2 c3 : Nat) (rest : List Nat)
    (hb : 0xF0 ≤ b) (hb2 : b < 0xF5) (hc1 : isCont c1 = true) (hc2 : isCont c2 = true)
    (hc3 : isCont c3 = true) (h1 : b = 0xF0 → 0x90 ≤ c1) (h2 : b = 0xF4 → c1 < 0x90) :
    utf8Decode (b :: c1 :: c2 :: c3 :: rest) =
      ((b - 0xF0) * 0x40000 + (c1 - 0x80) * 4096 + (c2 - 0x80) * 64 + (c3 - 0x80)) ::
        utf8Decode rest := by
  rw [utf8Decode_cons]
  rw [utf8DecodeStep, if_neg (by omega), if_neg (by omega), if_neg (by omega),
    if_neg (by omega), if_pos hb2]
  simp only [hc1, hc2, hc3]
  simp only [true_and]
  rw [if_pos ⟨h1, h2⟩]

/-- Decoding inverts encoding on sequences of valid scalar values. -/
theorem utf8Decode_encode (s : List Nat) (h : ∀ c ∈ s, ValidCP c) :
    utf8Decode (utf8Encode s) = s := by
  induction s with
  | nil => simp [utf8Encode, utf8Decode_nil]
  | cons c cs ih =>
    obtain ⟨hlt, hsur⟩ := h c (by simp)
    have ih' : utf8Decode (utf8Encode cs) = cs := ih (fun x hx => h x (by simp [hx]))
    simp only [utf8Encode, List.flatMap_cons] at *
    by_cases h1 : c < 0x80
    · rw [utf8EncodeChar, if_pos h1]
      rw [List.cons_append, List.nil_append, utf8Decode_step1 c _ h1, ih']
    · by_cases h2 : c < 0x800
      · rw [utf8EncodeChar, if_neg h1, if_pos h2]
        simp only [List.cons_append, List.nil_append]
        rw [utf8Decode_step2 _ _ _ (by omega) (by omega) (by simp [isCont]; omega), ih']
        congr 1
        omega
      · by_cases h3 : c < 0x10000
        · rw [utf8EncodeChar, if_neg h1, if_neg h2, if_pos h3]
          simp only [List.cons_append, List.nil_append]
          rw [utf8Decode_step3 _ _ _ _ (by omega) (by omega)
            (by simp [isCont]; omega) (by simp [isCont]; omega)
            (by omega) (by omega), ih']
          congr 1
          omega
        · rw [utf8EncodeChar, if_neg h1, if_neg h2, if_neg h3]
          simp only [List.cons_append, List.nil_append]
          rw [utf8Decode_step4 _ _ _ _ _ (by omega) (by omega)
            (by simp [isCont]; omega) (by simp [isCont]; omega) (by simp [isCont]; omega)
            (by omega) (by omega), ih']
          congr 1
          omega

/-! ## Frame codec (`src/frame.ts`)

The source's `generateMetaData` draws 4 random mask bytes; here the mask is
a parameter.  `generateMetaData` XOR-masks the payload in place and the
callers concatenate `meta ++ payload`; the model produces the same wire
bytes as `meta ++ maskedPayload`. -/

/-- XOR a byte list with a 4-byte mask starting at index `i`
(`p[i] ^= mask[i % 4]`). -/
def maskWith (mask : List Nat) : Nat → List Nat → List Nat
  | _, [] => []
  | i, b :: bs => (b ^^^ mask.getD (i % 4) 0) :: maskWith mask (i + 1) bs

/-- XOR a payload with a 4-byte mask (`p[i] ^= mask[i % 4]`). -/
def maskPayload (mask payload : List Nat) : List Nat := maskWith mask 0 payload

theorem maskWith_length (mask : List Nat) (i : Nat) (p : List Nat) :
    (maskWith mask i p).length = p.length := by
  induction p generalizing i with
  | nil => rfl
  | cons b bs ih => simp [maskWith, ih]

theorem maskWith_maskWith (mask : List Nat) (i : Nat) (p : List Nat) :
    maskWith mask i (maskWith mask i p) = p := by
  induction p generalizing i with
  | nil => rfl
  | cons b bs ih =>
    simp only [maskWith, ih]
    rw [Nat.xor_assoc, Nat.xor_self, Nat.xor_zero]

theorem maskPayload_length (mask p : List Nat) :
    (maskPayload mask p).length = p.length := maskWith_length mask 0 p

theorem maskPayload_maskPayload (mask p : List Nat) :
    maskPayload mask (maskPayload mask p) = p := maskWith_maskWith mask 0 p

/-- The frame header of `frame.ts`'s `generateMetaData`: FIN/opcode byte,
MASK/len7 byte, extended length bytes, and the mask key when masked. -/
def generateMetaData (fin : Bool) (opcode : Nat) (masked : Bool) (mask : List Nat)
    (len : Nat) : List Nat :=
  ((if fin then 128 else 0) + opcode) ::
    ((if masked then 128 else 0) +
      (if len < 126 then len else if len < 65536 then 126 else 127)) ::
    ((if len < 126 then []
      else if len < 65536 then writeUInt16BE len
      else writeUInt32BE (len / 2 ^ 32) ++ writeUInt32BE (len % 2 ^ 32)) ++
      (if masked then mask else []))

/-- Wire bytes of one frame: header followed by the (possibly masked) payload. -/
def frameBytes (fin : Bool) (opcode : Nat) (masked : Bool) (mask : List Nat)
    (payload : List Nat) : List Nat :=
  generateMetaData fin opcode masked mask payload.length ++
    (if masked then maskPayload mask payload else payload)

/-- `createTextFrame(str, masked)`: opcode 1, fin, UTF-8 payload. -/
def createTextFrame (s : List Nat) (masked : Bool) (mask : List Nat) : List Nat :=
  frameBytes true 1 masked mask (utf8Encode s)

/-- `createBinaryFrame(data, masked, first, fin)`: opcode 2 when first else 0. -/
def createBinaryFrame (data : List Nat) (masked first fin : Bool)
    (mask : List Nat) : List Nat :=
  frameBytes fin (if first then 2 else 0) masked mask data

/-- `createCloseFrame(code, reason, masked)`: opcode 8; payload is the 2-byte
big-endian code followed by the UTF-8 reason, or empty when the code is
falsy or 1005. -/
def createCloseFrame (code : Nat) (reason : List Nat) (masked : Bool)
    (mask : List Nat) : List Nat :=
  frameBytes true 8 masked mask
    (if code ≠ 0 ∧ code ≠ 1005 then writeUInt16BE code ++ utf8Encode reason else [])

/-- `createPingFrame(data, masked)`: opcode 9, UTF-8 payload. -/
def createPingFrame (s : List Nat) (masked : Bool) (mask : List Nat) : List Nat :=
  frameBytes true 9 masked mask (utf8Encode s)

/-- `createPongFrame(data, masked)`: opcode 10, UTF-8 payload. -/
def createPongFrame (s : List Nat) (masked : Bool) (mask : List Nat) : List Nat :=
  frameBytes true 10 masked mask (utf8Encode s)

/-! ## Frame extraction (`Connection.extractFrame`, `lib/Connect.ts` lines
459-514; `AppConnection.extractFrame` is the `server = true` instance) -/

/-- Result of one extraction attempt: `needMore` (source: `undefined`),
`protoError` (source: `false`), or a parsed frame together with the bytes
remaining in the buffer after consuming it. -/
inductive RawOut : Type
  | needMore : RawOut
  | protoError : RawOut
  | frame (fin : Bool) (opcode : Nat) (payload : List Nat) (rest : List Nat) : RawOut
deriving Repr, DecidableEq

/-- The tail of `extractFrame` after the extended length has been resolved
(`ls = (len, start)`): the final buffer-completeness check, the payload
slice, unmasking, and consuming the frame's bytes. -/
def finishExtract (buf : List Nat) (fin : Bool) (opcode hasMask : Nat)
    (ls? : Option (Nat × Nat)) : Option RawOut :=
  match ls? with
  | none => none
  | some ls =>
    if buf.length < ls.2 + ls.1 then some .needMore else
    let payload := (buf.drop ls.2).take ls.1
    let payload :=
      if hasMask ≠ 0 then maskPayload ((buf.drop (ls.2 - 4)).take 4) payload
      else payload
    some (.frame fin opcode payload (buf.drop (ls.2 + ls.1)))

/-- `Connection.extractFrame`, with every indexed access and multi-byte read
checked (`none` would mean an out-of-bounds access; the totality theorem
shows this never happens). -/
def extractFrameM (server : Bool) (buf : List Nat) : Option RawOut :=
  if buf.length < 2 then some .needMore else
  match buf[0]? with
  | none => none
  | some B0 =>
    let HB := B0 >>> 4
    if HB % 8 ≠ 0 then some .protoError else
    let fin : Bool := HB == 8
    let opcode := B0 % 16
    if opcode ≠ 0 ∧ opcode ≠ 1 ∧ opcode ≠ 2 ∧ opcode ≠ 8 ∧ opcode ≠ 9 ∧ opcode ≠ 10 then
      some .protoError else
    if 8 ≤ opcode ∧ ¬fin then some .protoError else
    match buf[1]? with
    | none => none
    | some B1 =>
      let hasMask := B1 >>> 7
      if (server ∧ hasMask = 0) ∨ (¬server ∧ hasMask ≠ 0) then some .protoError else
      let len0 := B1 % 128
      let start0 := if hasMask ≠ 0 then 6 else 2
      if buf.length < start0 + len0 then some .needMore else
      finishExtract buf fin opcode hasMask
        (if len0 = 126 then (readUInt16BE buf 2).map fun l => (l, start0 + 2)
         else if len0 = 127 then
           match readUInt32BE buf 2, readUInt32BE buf 6 with
           | some hi, some lo => some (hi * 2 ^ 32 + lo, start0 + 8)
           | _, _ => none
         else some (len0, start0))

/-- `extractFrame`'s parse result, with the (provably unreachable)
out-of-bounds case mapped to `needMore`. -/
def extractFrameRaw (server : Bool) (buf : List Nat) : RawOut :=
  (extractFrameM server buf).getD .needMore

theorem readUInt16BE_isSome (l : List Nat) (i : Nat) (h : i + 1 < l.length) :
    ∃ v, readUInt16BE l i = some v := by
  have h2 : i < l.length := by omega
  simp [readUInt16BE, List.getElem?_eq_getElem h2, List.getElem?_eq_getElem h]

theorem readUInt32BE_isSome (l : List Nat) (i : Nat) (h : i + 3 < l.length) :
    ∃ v, readUInt32BE l i = some v := by
  have h0 : i < l.length := by omega
  have h1 : i + 1 < l.length := by omega
  have h2 : i + 2 < l.length := by omega
  simp [readUInt32BE, List.getElem?_eq_getElem h0, List.getElem?_eq_getElem h1,
    List.getElem?_eq_getElem h2, List.getElem?_eq_getElem h]

theorem finishExtract_isSome (buf : List Nat) (fin : Bool) (opcode hasMask : Nat)
    (ls : Nat × Nat) : (finishExtract buf fin opcode hasMask (some ls)).isSome := by
  simp only [finishExtract]
  split <;> simp

theorem extractFrameM_isSome (server : Bool) (buf : List Nat) :
    (extractFrameM server buf).isSome := by
  match buf with
  | [] => simp [extractFrameM]
  | [b] => simp [extractFrameM]
  | b0 :: b1 :: t =>
    have hlen2 : ¬((b0 :: b1 :: t).length < 2) := by simp
    have hlc : (b0 :: b1 :: t).length = t.length + 1 + 1 := by simp
    simp only [extractFrameM, List.getElem?_cons_zero, List.getElem?_cons_succ, if_neg hlen2]
    repeat' split
    all_goals try rfl
    all_goals try exact finishExtract_isSome ..
    all_goals first
      | (rename_i hlen heq
         refine absurd heq ?_
         obtain ⟨v, hv⟩ := readUInt32BE_isSome (b0 :: b1 :: t) 2
           (by simp only [List.length_cons]; omega)
         simp [hv]
         exact readUInt32BE_isSome (b0 :: b1 :: t) 6
           (by simp only [List.length_cons]; omega))
      | (rename_i hlen
         obtain ⟨v, hv⟩ := readUInt16BE_isSome (b0 :: b1 :: t) 2
           (by simp only [List.length_cons]; omega)
         rw [hv]
         exact finishExtract_isSome ..)

end WS

namespace WS

/-! ## Connection state (`lib/Connect.ts` `Connection`,
`src/SocketConnect.ts` `AppConnection`)

`frameBuffer` holds a JS value: `undefined` (initial value in `Connection`),
a string, or an `InStream`; `AppConnection` initialises it to `''`.
`Connection.processFrame` compares the slot against `null` with `===`/`!==`;
the value `nullv` exists in the model so that comparison can be written as
the source writes it, and it is never stored. -/

/-- A JS value held in the `frameBuffer` slot. -/
inductive FBV : Type
  | undef : FBV
  | nullv : FBV
  | strv (s : List Nat) : FBV
  | streamv : FBV
deriving Repr, DecidableEq

/-- JS truthiness of a `frameBuffer` value (`!this.frameBuffer` is its
negation): `undefined`, `null` and `''` are falsy. -/
def FBV.truthy : FBV → Bool
  | .undef => false
  | .nullv => false
  | .strv s => !s.isEmpty
  | .streamv => true

/-- Observable connection events (`emit` calls and `InStream` pushes). -/
inductive WsEv : Type
  | text (s : List Nat) : WsEv
  | binaryStart : WsEv
  | binaryData (b : List Nat) : WsEv
  | binaryEnd : WsEv
  | pong (s : List Nat) : WsEv
  | closeEv (code : Nat) (reason : List Nat) : WsEv
deriving Repr, DecidableEq

/-- Connection state: role, `readyState` (0 CONNECTING, 1 OPEN, 2 CLOSING,
3 CLOSED), receive buffer, assembly slot, plus the observable log of socket
writes, emitted events, and whether `socket.end()` was called. -/
structure ConnSt : Type where
  server : Bool
  readyState : Nat
  buffer : List Nat
  frameBuffer : FBV
  writes : List (List Nat)
  events : List WsEv
  sockEnded : Bool
deriving Repr, DecidableEq

/-- Default value of the mutable static `Connection.maxBufferLength` (2 MiB);
`setMaxBufferLength` can change it process-wide, so the receive-path
definitions take the current limit as a parameter. -/
def maxBufferLength : Nat := 2 * 1024 * 1024

/-- `processCloseFrame`: parse optional 2-byte code and UTF-8 reason, echo a
close frame, set CLOSED, emit `close`. -/
def processCloseFrame (st : ConnSt) (payload pmask : List Nat) : ConnSt :=
  let code := if 2 ≤ payload.length then payload.getD 0 0 * 256 + payload.getD 1 0 else 1005
  let reason := if 2 ≤ payload.length then utf8Decode (payload.drop 2) else []
  { st with
    writes := st.writes ++ [createCloseFrame code reason (!st.server) pmask],
    readyState := 3,
    events := st.events ++ [.closeEv code reason] }

/-- `Connection.processFrame` (`lib/Connect.ts` lines 525-583).  The data
frame checks compare `frameBuffer` with `null` by strict equality, exactly as
the source does (`=== null` / `!== null`); the slot is initialised to
`undefined` and never holds `null`.  `pmask` stands for the random mask of
any frame written in reply (unused for a server-role connection). -/
def processFrame3 (st : ConnSt) (fin : Bool) (opcode : Nat) (payload pmask : List Nat) :
    ConnSt × Bool :=
  if opcode = 8 then
    if st.readyState = 2 then ({ st with sockEnded := true }, true)
    else if st.readyState = 1 then (processCloseFrame st payload pmask, true)
    else (st, true)
  else if opcode = 9 then
    (if st.readyState = 1 then
      { st with
        writes := st.writes ++ [createPongFrame (utf8Decode payload) (!st.server) pmask] }
     else st, true)
  else if opcode = 10 then
    ({ st with events := st.events ++ [.pong (utf8Decode payload)] }, true)
  else if st.readyState ≠ 1 then (st, true)
  else if opcode = 0 ∧ st.frameBuffer = .nullv then (st, false)
  else if opcode ≠ 0 ∧ st.frameBuffer ≠ .nullv then (st, false)
  else match st.frameBuffer with
    | .strv s =>
      let s2 := if s ≠ [] then s ++ utf8Decode payload else utf8Decode payload
      if fin then
        ({ st with events := st.events ++ [.text s2], frameBuffer := .undef }, true)
      else ({ st with frameBuffer := .strv s2 }, true)
    | fb =>
      let st1 :=
        if ¬fb.truthy then
          { st with frameBuffer := .streamv, events := st.events ++ [.binaryStart] }
        else st
      let st2 := { st1 with events := st1.events ++ [.binaryData payload] }
      if fin then
        ({ st2 with events := st2.events ++ [.binaryEnd], frameBuffer := .undef }, true)
      else (st2, true)

/-- `AppConnection.processFrame` (`src/SocketConnect.ts` lines 338-377): the
data frame checks use JS truthiness (`!this.frameBuffer` /
`this.frameBuffer`), the slot starts as `''` and is reset to `''`, and all
written frames are unmasked (server role). -/
def processFrameApp (st : ConnSt) (fin : Bool) (opcode : Nat) (payload pmask : List Nat) :
    ConnSt × Bool :=
  if opcode = 8 then
    if st.readyState = 2 then ({ st with sockEnded := true }, true)
    else if st.readyState = 1 then (processCloseFrame st payload pmask, true)
    else (st, true)
  else if opcode = 9 then
    (if st.readyState = 1 then
      { st with
        writes := st.writes ++ [createPongFrame (utf8Decode payload) false pmask] }
     else st, true)
  else if opcode = 10 then
    ({ st with events := st.events ++ [.pong (utf8Decode payload)] }, true)
  else if st.readyState ≠ 1 then (st, true)
  else if opcode = 0 ∧ ¬st.frameBuffer.truthy then (st, false)
  else if opcode ≠ 0 ∧ st.frameBuffer.truthy then (st, false)
  else match st.frameBuffer with
    | .strv s =>
      let s2 := if s ≠ [] then s ++ utf8Decode payload else utf8Decode payload
      if fin then
        ({ st with events := st.events ++ [.text s2], frameBuffer := .strv [] }, true)
      else ({ st with frameBuffer := .strv s2 }, true)
    | fb =>
      let st1 :=
        if ¬fb.truthy then
          { st with frameBuffer := .streamv, events := st.events ++ [.binaryStart] }
        else st
      let st2 := { st1 with events := st1.events ++ [.binaryData payload] }
      if fin then
        ({ st2 with events := st2.events ++ [.binaryEnd], frameBuffer := .strv [] }, true)
      else (st2, true)

/-- `Connection.close(code, reason)` (lines 210-219): on OPEN send a close
frame and move to CLOSING; otherwise, if not CLOSED, end the socket and move
to CLOSED; in every case emit `close(code, reason)`. -/
def closeConn (st : ConnSt) (code : Nat) (reason pmask : List Nat) : ConnSt :=
  let st1 :=
    if st.readyState = 1 then
      { st with
        writes := st.writes ++ [createCloseFrame code reason (!st.server) pmask],
        readyState := 2 }
    else if st.readyState ≠ 3 then { st with sockEnded := true, readyState := 3 }
    else st
  { st1 with events := st1.events ++ [.closeEv code reason] }

/-- One `extractFrame` call on the connection state: parse the buffer, and on
a complete frame consume its bytes and process it.  `none` = need more data
(source: `undefined`), `some false` = protocol error, `some true` = frame
handled. -/
def extractFrameSt (st : ConnSt) (pmask : List Nat) : ConnSt × Option Bool :=
  match extractFrameRaw st.server st.buffer with
  | .needMore => (st, none)
  | .protoError => (st, some false)
  | .frame fin opcode payload rest =>
    let r := processFrame3 { st with buffer := rest } fin opcode payload pmask
    (r.1, some r.2)

theorem extract_frameBytes (server fin : Bool) (opcode : Nat) (payload mask rest : List Nat)
    (hop : opcode = 0 ∨ opcode = 1 ∨ opcode = 2 ∨ opcode = 8 ∨ opcode = 9 ∨ opcode = 10)
    (hctl : 8 ≤ opcode → fin = true)
    (hmask : mask.length = 4)
    (hlen : payload.length < 2 ^ 53) :
    extractFrameM server (frameBytes fin opcode server mask payload ++ rest) =
      some (.frame fin opcode payload rest) := by
  have hople : opcode ≤ 10 := by rcases hop with h | h | h | h | h | h <;> omega
  have hopval : ¬(opcode ≠ 0 ∧ opcode ≠ 1 ∧ opcode ≠ 2 ∧ opcode ≠ 8 ∧ opcode ≠ 9 ∧
      opcode ≠ 10) := by
    rintro ⟨a, b, c, d, e, f⟩
    rcases hop with h | h | h | h | h | h <;> contradiction
  have hctl2 : ¬(8 ≤ opcode ∧ ¬fin = true) := fun ⟨h8, hf⟩ => hf (hctl h8)
  set B0 := (if fin then 128 else 0) + opcode with hB0def
  have hB0a : B0 >>> 4 % 8 = 0 := by
    rw [hB0def, Nat.shiftRight_eq_div_pow]
    cases fin <;> simp <;> omega
  have hB0b : (B0 >>> 4 == 8) = fin := by
    rw [hB0def, Nat.shiftRight_eq_div_pow]
    cases fin
    · simp
      omega
    · simp
      omega
  have hB0c : B0 % 16 = opcode := by
    rw [hB0def]
    cases fin <;> simp <;> omega
  obtain ⟨m0, m1, m2, m3, rfl⟩ : ∃ a b c d, mask = [a, b, c, d] := by
    match mask, hmask with
    | [a, b, c, d], _ => exact ⟨a, b, c, d, rfl⟩
  cases server
  · -- client-role receiver: unmasked frame from the server
    by_cases hL : payload.length < 126
    · have hbuf : frameBytes fin opcode false [m0, m1, m2, m3] payload ++ rest =
          B0 :: payload.length :: (payload ++ rest) := by
        simp [frameBytes, generateMetaData, hL, hB0def]
      rw [hbuf]
      have hmb : payload.length >>> 7 = 0 := by
        rw [Nat.shiftRight_eq_div_pow]
        omega
      have hmod : payload.length % 128 = payload.length := by omega
      have e3' : ¬(payload.length = 126) := by omega
      have e4' : ¬(payload.length = 127) := by omega
      have h1 : List.take payload.length
          (List.drop 2 (B0 :: payload.length :: (payload ++ rest))) = payload := by
        have hsplit : B0 :: payload.length :: (payload ++ rest) =
            [B0, payload.length] ++ (payload ++ rest) := by simp
        rw [hsplit, List.drop_left' (by simp), List.take_left' (by simp [maskPayload_length])]
      have h2 : List.drop (2 + payload.length)
          (B0 :: payload.length :: (payload ++ rest)) = rest := by
        have hsplit : B0 :: payload.length :: (payload ++ rest) =
            ([B0, payload.length] ++ payload) ++ rest := by simp
        rw [hsplit, List.drop_left' (by simp [List.length_append, maskPayload_length] <;> omega)]
      have e2' : ¬((payload ++ rest).length + 1 + 1 < 2 + payload.length) := by
        simp [List.length_append, maskPayload_length]
        omega
      have e5' : ¬((B0 :: payload.length :: (payload ++ rest)).length < 2 + payload.length) := by
        simp only [List.length_cons, List.length_append, maskPayload_length]
        omega
      simp only [extractFrameM, List.length_cons, List.getElem?_cons_zero,
        List.getElem?_cons_succ]
      rw [if_neg (by omega)]
      simp only [hB0a, hB0b, hB0c, ne_eq, not_true_eq_false, not_false_eq_true,
        if_neg hopval, if_neg hctl2, hmb, hmod,
        eq_false (show ¬((0 : Nat) ≠ 0) by omega),
          (by simp : (false = true) = False),
          (by simp : (¬false = true) = True),
        true_and, false_and, and_true, and_false, or_self, false_or, or_false,
          eq_self_iff_true, not_true, if_true, if_false, eq_false e2', eq_false e3', eq_false e4', finishExtract,
        eq_false e5', h1, h2]
    · by_cases hL2 : payload.length < 65536
      · have hbuf : frameBytes fin opcode false [m0, m1, m2, m3] payload ++ rest =
            B0 :: 126 :: (payload.length / 256) :: (payload.length % 256) :: (payload ++ rest) := by
          simp [frameBytes, generateMetaData, hL, hL2, writeUInt16BE, hB0def]
        rw [hbuf]
        have hr16 : readUInt16BE (B0 :: 126 :: (payload.length / 256) :: (payload.length % 256) :: (payload ++ rest)) 2 = some payload.length := by
          simp [readUInt16BE] <;> omega
        have h1 : List.take payload.length
            (List.drop (2 + 2) (B0 :: 126 :: (payload.length / 256) :: (payload.length % 256) :: (payload ++ rest))) = payload := by
          have hsplit : B0 :: 126 :: (payload.length / 256) :: (payload.length % 256) :: (payload ++ rest) =
              [B0, 126, payload.length / 256, payload.length % 256] ++ (payload ++ rest) := by simp
          rw [hsplit, List.drop_left' (by simp), List.take_left' (by simp [maskPayload_length])]
        have h2 : List.drop (2 + 2 + payload.length)
            (B0 :: 126 :: (payload.length / 256) :: (payload.length % 256) :: (payload ++ rest)) = rest := by
          have hsplit : B0 :: 126 :: (payload.length / 256) :: (payload.length % 256) :: (payload ++ rest) =
              ([B0, 126, payload.length / 256, payload.length % 256] ++ payload) ++ rest := by simp
          rw [hsplit, List.drop_left' (by simp [List.length_append, maskPayload_length] <;> omega)]
        have e2' : ¬((payload ++ rest).length + 1 + 1 + 1 + 1 < 2 + 126) := by
          simp [List.length_append, maskPayload_length]
          omega
        have e5' : ¬((B0 :: 126 :: (payload.length / 256) :: (payload.length % 256) :: (payload ++ rest)).length < 2 + 2 + payload.length) := by
          simp only [List.length_cons, List.length_append, maskPayload_length]
          omega
        simp only [extractFrameM, List.length_cons, List.getElem?_cons_zero,
          List.getElem?_cons_succ]
        rw [if_neg (by omega)]
        simp only [hB0a, hB0b, hB0c, ne_eq, not_true_eq_false, not_false_eq_true,
          if_neg hopval, if_neg hctl2, (by decide : (126 : Nat) >>> 7 = 0),
          (by norm_num : (126 : Nat) % 128 = 126),
          eq_false (show ¬((0 : Nat) ≠ 0) by omega),
          (by simp : (false = true) = False),
          (by simp : (¬false = true) = True),
          true_and, false_and, and_true, and_false, or_self, false_or, or_false,
          eq_self_iff_true, not_true, if_true, if_false, eq_false e2', hr16, Option.map_some', finishExtract,
          eq_false e5', h1, h2]
      · have hbuf : frameBytes fin opcode false [m0, m1, m2, m3] payload ++ rest =
            B0 :: 127 :: (payload.length / 2 ^ 32 / 2 ^ 24 % 256) :: (payload.length / 2 ^ 32 / 2 ^ 16 % 256) :: (payload.length / 2 ^ 32 / 2 ^ 8 % 256) :: (payload.length / 2 ^ 32 % 256) :: (payload.length % 2 ^ 32 / 2 ^ 24 % 256) :: (payload.length % 2 ^ 32 / 2 ^ 16 % 256) :: (payload.length % 2 ^ 32 / 2 ^ 8 % 256) :: (payload.length % 2 ^ 32 % 256) :: (payload ++ rest) := by
          simp [frameBytes, generateMetaData, hL, hL2, writeUInt32BE, hB0def]
        rw [hbuf]
        have hr32a : readUInt32BE (B0 :: 127 :: (payload.length / 2 ^ 32 / 2 ^ 24 % 256) :: (payload.length / 2 ^ 32 / 2 ^ 16 % 256) :: (payload.length / 2 ^ 32 / 2 ^ 8 % 256) :: (payload.length / 2 ^ 32 % 256) :: (payload.length % 2 ^ 32 / 2 ^ 24 % 256) :: (payload.length % 2 ^ 32 / 2 ^ 16 % 256) :: (payload.length % 2 ^ 32 / 2 ^ 8 % 256) :: (payload.length % 2 ^ 32 % 256) :: (payload ++ rest)) 2 = some (payload.length / 2 ^ 32) := by
          simp [readUInt32BE] <;> omega
        have hr32b : readUInt32BE (B0 :: 127 :: (payload.length / 2 ^ 32 / 2 ^ 24 % 256) :: (payload.length / 2 ^ 32 / 2 ^ 16 % 256) :: (payload.length / 2 ^ 32 / 2 ^ 8 % 256) :: (payload.length / 2 ^ 32 % 256) :: (payload.length % 2 ^ 32 / 2 ^ 24 % 256) :: (payload.length % 2 ^ 32 / 2 ^ 16 % 256) :: (payload.length % 2 ^ 32 / 2 ^ 8 % 256) :: (payload.length % 2 ^ 32 % 256) :: (payload ++ rest)) 6 = some (payload.length % 2 ^ 32) := by
          simp [readUInt32BE] <;> omega
        have h1 : List.take (payload.length / 2 ^ 32 * 2 ^ 32 + payload.length % 2 ^ 32)
            (List.drop (2 + 8) (B0 :: 127 :: (payload.length / 2 ^ 32 / 2 ^ 24 % 256) :: (payload.length / 2 ^ 32 / 2 ^ 16 % 256) :: (payload.length / 2 ^ 32 / 2 ^ 8 % 256) :: (payload.length / 2 ^ 32 % 256) :: (payload.length % 2 ^ 32 / 2 ^ 24 % 256) :: (payload.length % 2 ^ 32 / 2 ^ 16 % 256) :: (payload.length % 2 ^ 32 / 2 ^ 8 % 256) :: (payload.length % 2 ^ 32 % 256) :: (payload ++ rest))) = payload := by
          rw [(by omega : (payload.length / 2 ^ 32 * 2 ^ 32 + payload.length % 2 ^ 32) = payload.length)]
          have hsplit : B0 :: 127 :: (payload.length / 2 ^ 32 / 2 ^ 24 % 256) :: (payload.length / 2 ^ 32 / 2 ^ 16 % 256) :: (payload.length / 2 ^ 32 / 2 ^ 8 % 256) :: (payload.length / 2 ^ 32 % 256) :: (payload.length % 2 ^ 32 / 2 ^ 24 % 256) :: (payload.length % 2 ^ 32 / 2 ^ 16 % 256) :: (payload.length % 2 ^ 32 / 2 ^ 8 % 256) :: (payload.length % 2 ^ 32 % 256) :: (payload ++ rest) =
              [B0, 127, (payload.length / 2 ^ 32 / 2 ^ 24 % 256), (payload.length / 2 ^ 32 / 2 ^ 16 % 256), (payload.length / 2 ^ 32 / 2 ^ 8 % 256), (payload.length / 2 ^ 32 % 256), (payload.length % 2 ^ 32 / 2 ^ 24 % 256), (payload.length % 2 ^ 32 / 2 ^ 16 % 256), (payload.length % 2 ^ 32 / 2 ^ 8 % 256), (payload.length % 2 ^ 32 % 256)] ++ (payload ++ rest) := by simp
          rw [hsplit, List.drop_left' (by simp), List.take_left' (by simp [maskPayload_length])]
        have h2 : List.drop (2 + 8 + (payload.length / 2 ^ 32 * 2 ^ 32 + payload.length % 2 ^ 32))
            (B0 :: 127 :: (payload.length / 2 ^ 32 / 2 ^ 24 % 256) :: (payload.length / 2 ^ 32 / 2 ^ 16 % 256) :: (payload.length / 2 ^ 32 / 2 ^ 8 % 256) :: (payload.length / 2 ^ 32 % 256) :: (payload.length % 2 ^ 32 / 2 ^ 24 % 256) :: (payload.length % 2 ^ 32 / 2 ^ 16 % 256) :: (payload.length % 2 ^ 32 / 2 ^ 8 % 256) :: (payload.length % 2 ^ 32 % 256) :: (payload ++ rest)) = rest := by
          rw [(by omega : (payload.length / 2 ^ 32 * 2 ^ 32 + payload.length % 2 ^ 32) = payload.length)]
          have hsplit : B0 :: 127 :: (payload.length / 2 ^ 32 / 2 ^ 24 % 256) :: (payload.length / 2 ^ 32 / 2 ^ 16 % 256) :: (payload.length / 2 ^ 32 / 2 ^ 8 % 256) :: (payload.length / 2 ^ 32 % 256) :: (payload.length % 2 ^ 32 / 2 ^ 24 % 256) :: (payload.length % 2 ^ 32 / 2 ^ 16 % 256) :: (payload.length % 2 ^ 32 / 2 ^ 8 % 256) :: (payload.length % 2 ^ 32 % 256) :: (payload ++ rest) =
              ([B0, 127, (payload.length / 2 ^ 32 / 2 ^ 24 % 256), (payload.length / 2 ^ 32 / 2 ^ 16 % 256), (payload.length / 2 ^ 32 / 2 ^ 8 % 256), (payload.length / 2 ^ 32 % 256), (payload.length % 2 ^ 32 / 2 ^ 24 % 256), (payload.length % 2 ^ 32 / 2 ^ 16 % 256), (payload.length % 2 ^ 32 / 2 ^ 8 % 256), (payload.length % 2 ^ 32 % 256)] ++ payload) ++ rest := by simp
          rw [hsplit, List.drop_left' (by simp [List.length_append, maskPayload_length] <;> omega)]
        have e2' : ¬((payload ++ rest).length + 1 + 1 + 1 + 1 + 1 + 1 + 1 + 1 + 1 + 1 < 2 + 127) := by
          simp [List.length_append, maskPayload_length]
          omega
        have e5' : ¬((B0 :: 127 :: (payload.length / 2 ^ 32 / 2 ^ 24 % 256) :: (payload.length / 2 ^ 32 / 2 ^ 16 % 256) :: (payload.length / 2 ^ 32 / 2 ^ 8 % 256) :: (payload.length / 2 ^ 32 % 256) :: (payload.length % 2 ^ 32 / 2 ^ 24 % 256) :: (payload.length % 2 ^ 32 / 2 ^ 16 % 256) :: (payload.length % 2 ^ 32 / 2 ^ 8 % 256) :: (payload.length % 2 ^ 32 % 256) :: (payload ++ rest)).length < 2 + 8 + (payload.length / 2 ^ 32 * 2 ^ 32 + payload.length % 2 ^ 32)) := by
          simp only [List.length_cons, List.length_append, maskPayload_length]
          omega
        simp only [extractFrameM, List.length_cons, List.getElem?_cons_zero,
          List.getElem?_cons_succ]
        rw [if_neg (by omega)]
        simp only [hB0a, hB0b, hB0c, ne_eq, not_true_eq_false, not_false_eq_true,
          if_neg hopval, if_neg hctl2, (by decide : (127 : Nat) >>> 7 = 0),
          (by norm_num : (127 : Nat) % 128 = 127),
          (by norm_num : ((127 : Nat) = 126) = False),
          eq_false (show ¬((0 : Nat) ≠ 0) by omega),
          (by simp : (false = true) = False),
          (by simp : (¬false = true) = True),
          true_and, false_and, and_true, and_false, or_self, false_or, or_false,
          eq_self_iff_true, not_true, if_true, if_false, eq_false e2', hr32a, hr32b, finishExtract,
          eq_false e5', h1, h2]
  · -- server-role receiver: masked frame from the client
    by_cases hL : payload.length < 126
    · have hbuf : frameBytes fin opcode true [m0, m1, m2, m3] payload ++ rest =
          B0 :: (128 + payload.length) :: m0 :: m1 :: m2 :: m3 :: (maskPayload [m0, m1, m2, m3] payload ++ rest) := by
        simp [frameBytes, generateMetaData, hL, hB0def]
      rw [hbuf]
      have hmb : (128 + payload.length) >>> 7 = 1 := by
        rw [Nat.shiftRight_eq_div_pow]
        omega
      have hmod : (128 + payload.length) % 128 = payload.length := by omega
      have e3' : ¬(payload.length = 126) := by omega
      have e4' : ¬(payload.length = 127) := by omega
      have h1 : List.take payload.length
          (List.drop 6 (B0 :: (128 + payload.length) :: m0 :: m1 :: m2 :: m3 :: (maskPayload [m0, m1, m2, m3] payload ++ rest))) = maskPayload [m0, m1, m2, m3] payload := by
        have hsplit : B0 :: (128 + payload.length) :: m0 :: m1 :: m2 :: m3 :: (maskPayload [m0, m1, m2, m3] payload ++ rest) =
            [B0, (128 + payload.length), m0, m1, m2, m3] ++ (maskPayload [m0, m1, m2, m3] payload ++ rest) := by simp
        rw [hsplit, List.drop_left' (by simp), List.take_left' (by simp [maskPayload_length])]
      have h2 : List.drop (6 + payload.length)
          (B0 :: (128 + payload.length) :: m0 :: m1 :: m2 :: m3 :: (maskPayload [m0, m1, m2, m3] payload ++ rest)) = rest := by
        have hsplit : B0 :: (128 + payload.length) :: m0 :: m1 :: m2 :: m3 :: (maskPayload [m0, m1, m2, m3] payload ++ rest) =
            ([B0, (128 + payload.length), m0, m1, m2, m3] ++ maskPayload [m0, m1, m2, m3] payload) ++ rest := by simp
        rw [hsplit, List.drop_left' (by simp [List.length_append, maskPayload_length] <;> omega)]
      have h3 : List.take 4 (List.drop (6 - 4) (B0 :: (128 + payload.length) :: m0 :: m1 :: m2 :: m3 :: (maskPayload [m0, m1, m2, m3] payload ++ rest))) = [m0, m1, m2, m3] := by
        have hsplit : B0 :: (128 + payload.length) :: m0 :: m1 :: m2 :: m3 :: (maskPayload [m0, m1, m2, m3] payload ++ rest) =
            [B0, (128 + payload.length)] ++ ([m0, m1, m2, m3] ++ (maskPayload [m0, m1, m2, m3] payload ++ rest)) := by simp
        rw [(by norm_num : (6 - 4 : Nat) = 2), hsplit, List.drop_left' (by simp),
          List.take_left' (by simp)]
      have e2' : ¬((maskPayload [m0, m1, m2, m3] payload ++ rest).length + 1 + 1 + 1 + 1 + 1 + 1 < 6 + payload.length) := by
        simp [List.length_append, maskPayload_length]
        omega
      have e5' : ¬((B0 :: (128 + payload.length) :: m0 :: m1 :: m2 :: m3 :: (maskPayload [m0, m1, m2, m3] payload ++ rest)).length < 6 + payload.length) := by
        simp only [List.length_cons, List.length_append, maskPayload_length]
        omega
      simp only [extractFrameM, List.length_cons, List.getElem?_cons_zero,
        List.getElem?_cons_succ]
      rw [if_neg (by omega)]
      simp only [hB0a, hB0b, hB0c, ne_eq, not_true_eq_false, not_false_eq_true,
        if_neg hopval, if_neg hctl2, hmb, hmod,
        eq_true (show (1 : Nat) ≠ 0 by omega),
          (by norm_num : ((1 : Nat) = 0) = False),
        true_and, false_and, and_true, and_false, or_self, false_or, or_false,
          eq_self_iff_true, not_true, if_true, if_false, eq_false e2', eq_false e3', eq_false e4', finishExtract,
        eq_false e5', h3, h1, maskPayload_maskPayload, h2]
    · by_cases hL2 : payload.length < 65536
      · have hbuf : frameBytes fin opcode true [m0, m1, m2, m3] payload ++ rest =
            B0 :: 254 :: (payload.length / 256) :: (payload.length % 256) :: m0 :: m1 :: m2 :: m3 :: (maskPayload [m0, m1, m2, m3] payload ++ rest) := by
          simp [frameBytes, generateMetaData, hL, hL2, writeUInt16BE, hB0def]
        rw [hbuf]
        have hr16 : readUInt16BE (B0 :: 254 :: (payload.length / 256) :: (payload.length % 256) :: m0 :: m1 :: m2 :: m3 :: (maskPayload [m0, m1, m2, m3] payload ++ rest)) 2 = some payload.length := by
          simp [readUInt16BE] <;> omega
        have h1 : List.take payload.length
            (List.drop (6 + 2) (B0 :: 254 :: (payload.length / 256) :: (payload.length % 256) :: m0 :: m1 :: m2 :: m3 :: (maskPayload [m0, m1, m2, m3] payload ++ rest))) = maskPayload [m0, m1, m2, m3] payload := by
          have hsplit : B0 :: 254 :: (payload.length / 256) :: (payload.length % 256) :: m0 :: m1 :: m2 :: m3 :: (maskPayload [m0, m1, m2, m3] payload ++ rest) =
              [B0, 254, payload.length / 256, payload.length % 256, m0, m1, m2, m3] ++ (maskPayload [m0, m1, m2, m3] payload ++ rest) := by simp
          rw [hsplit, List.drop_left' (by simp), List.take_left' (by simp [maskPayload_length])]
        have h2 : List.drop (6 + 2 + payload.length)
            (B0 :: 254 :: (payload.length / 256) :: (payload.length % 256) :: m0 :: m1 :: m2 :: m3 :: (maskPayload [m0, m1, m2, m3] payload ++ rest)) = rest := by
          have hsplit : B0 :: 254 :: (payload.length / 256) :: (payload.length % 256) :: m0 :: m1 :: m2 :: m3 :: (maskPayload [m0, m1, m2, m3] payload ++ rest) =
              ([B0, 254, payload.length / 256, payload.length % 256, m0, m1, m2, m3] ++ maskPayload [m0, m1, m2, m3] payload) ++ rest := by simp
          rw [hsplit, List.drop_left' (by simp [List.length_append, maskPayload_length] <;> omega)]
        have h3 : List.take 4 (List.drop (6 + 2 - 4) (B0 :: 254 :: (payload.length / 256) :: (payload.length % 256) :: m0 :: m1 :: m2 :: m3 :: (maskPayload [m0, m1, m2, m3] payload ++ rest))) = [m0, m1, m2, m3] := by
          have hsplit : B0 :: 254 :: (payload.length / 256) :: (payload.length % 256) :: m0 :: m1 :: m2 :: m3 :: (maskPayload [m0, m1, m2, m3] payload ++ rest) =
              [B0, 254, payload.length / 256, payload.length % 256] ++
                ([m0, m1, m2, m3] ++ (maskPayload [m0, m1, m2, m3] payload ++ rest)) := by simp
          rw [(by norm_num : (6 + 2 - 4 : Nat) = 4), hsplit, List.drop_left' (by simp),
            List.take_left' (by simp)]
        have e2' : ¬((maskPayload [m0, m1, m2, m3] payload ++ rest).length + 1 + 1 + 1 + 1 + 1 + 1 + 1 + 1 < 6 + 126) := by
          simp [List.length_append, maskPayload_length]
          omega
        have e5' : ¬((B0 :: 254 :: (payload.length / 256) :: (payload.length % 256) :: m0 :: m1 :: m2 :: m3 :: (maskPayload [m0, m1, m2, m3] payload ++ rest)).length < 6 + 2 + payload.length) := by
          simp only [List.length_cons, List.length_append, maskPayload_length]
          omega
        simp only [extractFrameM, List.length_cons, List.getElem?_cons_zero,
          List.getElem?_cons_succ]
        rw [if_neg (by omega)]
        simp only [hB0a, hB0b, hB0c, ne_eq, not_true_eq_false, not_false_eq_true,
          if_neg hopval, if_neg hctl2, (by decide : (254 : Nat) >>> 7 = 1),
          (by norm_num : (254 : Nat) % 128 = 126),
          eq_true (show (1 : Nat) ≠ 0 by omega),
          (by norm_num : ((1 : Nat) = 0) = False),
          true_and, false_and, and_true, and_false, or_self, false_or, or_false,
          eq_self_iff_true, not_true, if_true, if_false, eq_false e2', hr16, Option.map_some', finishExtract,
          eq_false e5', h3, h1, maskPayload_maskPayload, h2]
      · have hbuf : frameBytes fin opcode true [m0, m1, m2, m3] payload ++ rest =
            B0 :: 255 :: (payload.length / 2 ^ 32 / 2 ^ 24 % 256) :: (payload.length / 2 ^ 32 / 2 ^ 16 % 256) :: (payload.length / 2 ^ 32 / 2 ^ 8 % 256) :: (payload.length / 2 ^ 32 % 256) :: (payload.length % 2 ^ 32 / 2 ^ 24 % 256) :: (payload.length % 2 ^ 32 / 2 ^ 16 % 256) :: (payload.length % 2 ^ 32 / 2 ^ 8 % 256) :: (payload.length % 2 ^ 32 % 256) :: m0 :: m1 :: m2 :: m3 :: (maskPayload [m0, m1, m2, m3] payload ++ rest) := by
          simp [frameBytes, generateMetaData, hL, hL2, writeUInt32BE, hB0def]
        rw [hbuf]
        have hr32a : readUInt32BE (B0 :: 255 :: (payload.length / 2 ^ 32 / 2 ^ 24 % 256) :: (payload.length / 2 ^ 32 / 2 ^ 16 % 256) :: (payload.length / 2 ^ 32 / 2 ^ 8 % 256) :: (payload.length / 2 ^ 32 % 256) :: (payload.length % 2 ^ 32 / 2 ^ 24 % 256) :: (payload.length % 2 ^ 32 / 2 ^ 16 % 256) :: (payload.length % 2 ^ 32 / 2 ^ 8 % 256) :: (payload.length % 2 ^ 32 % 256) :: m0 :: m1 :: m2 :: m3 :: (maskPayload [m0, m1, m2, m3] payload ++ rest)) 2 = some (payload.length / 2 ^ 32) := by
          simp [readUInt32BE] <;> omega
        have hr32b : readUInt32BE (B0 :: 255 :: (payload.length / 2 ^ 32 / 2 ^ 24 % 256) :: (payload.length / 2 ^ 32 / 2 ^ 16 % 256) :: (payload.length / 2 ^ 32 / 2 ^ 8 % 256) :: (payload.length / 2 ^ 32 % 256) :: (payload.length % 2 ^ 32 / 2 ^ 24 % 256) :: (payload.length % 2 ^ 32 / 2 ^ 16 % 256) :: (payload.length % 2 ^ 32 / 2 ^ 8 % 256) :: (payload.length % 2 ^ 32 % 256) :: m0 :: m1 :: m2 :: m3 :: (maskPayload [m0, m1, m2, m3] payload ++ rest)) 6 = some (payload.length % 2 ^ 32) := by
          simp [readUInt32BE] <;> omega
        have h1 : List.take (payload.length / 2 ^ 32 * 2 ^ 32 + payload.length % 2 ^ 32)
            (List.drop (6 + 8) (B0 :: 255 :: (payload.length / 2 ^ 32 / 2 ^ 24 % 256) :: (payload.length / 2 ^ 32 / 2 ^ 16 % 256) :: (payload.length / 2 ^ 32 / 2 ^ 8 % 256) :: (payload.length / 2 ^ 32 % 256) :: (payload.length % 2 ^ 32 / 2 ^ 24 % 256) :: (payload.length % 2 ^ 32 / 2 ^ 16 % 256) :: (payload.length % 2 ^ 32 / 2 ^ 8 % 256) :: (payload.length % 2 ^ 32 % 256) :: m0 :: m1 :: m2 :: m3 :: (maskPayload [m0, m1, m2, m3] payload ++ rest))) = maskPayload [m0, m1, m2, m3] payload := by
          rw [(by omega : (payload.length / 2 ^ 32 * 2 ^ 32 + payload.length % 2 ^ 32) = payload.length)]
          have hsplit : B0 :: 255 :: (payload.length / 2 ^ 32 / 2 ^ 24 % 256) :: (payload.length / 2 ^ 32 / 2 ^ 16 % 256) :: (payload.length / 2 ^ 32 / 2 ^ 8 % 256) :: (payload.length / 2 ^ 32 % 256) :: (payload.length % 2 ^ 32 / 2 ^ 24 % 256) :: (payload.length % 2 ^ 32 / 2 ^ 16 % 256) :: (payload.length % 2 ^ 32 / 2 ^ 8 % 256) :: (payload.length % 2 ^ 32 % 256) :: m0 :: m1 :: m2 :: m3 :: (maskPayload [m0, m1, m2, m3] payload ++ rest) =
              [B0, 255, (payload.length / 2 ^ 32 / 2 ^ 24 % 256), (payload.length / 2 ^ 32 / 2 ^ 16 % 256), (payload.length / 2 ^ 32 / 2 ^ 8 % 256), (payload.length / 2 ^ 32 % 256), (payload.length % 2 ^ 32 / 2 ^ 24 % 256), (payload.length % 2 ^ 32 / 2 ^ 16 % 256), (payload.length % 2 ^ 32 / 2 ^ 8 % 256), (payload.length % 2 ^ 32 % 256), m0, m1, m2, m3] ++ (maskPayload [m0, m1, m2, m3] payload ++ rest) := by simp
          rw [hsplit, List.drop_left' (by simp), List.take_left' (by simp [maskPayload_length])]
        have h2 : List.drop (6 + 8 + (payload.length / 2 ^ 32 * 2 ^ 32 + payload.length % 2 ^ 32))
            (B0 :: 255 :: (payload.length / 2 ^ 32 / 2 ^ 24 % 256) :: (payload.length / 2 ^ 32 / 2 ^ 16 % 256) :: (payload.length / 2 ^ 32 / 2 ^ 8 % 256) :: (payload.length / 2 ^ 32 % 256) :: (payload.length % 2 ^ 32 / 2 ^ 24 % 256) :: (payload.length % 2 ^ 32 / 2 ^ 16 % 256) :: (payload.length % 2 ^ 32 / 2 ^ 8 % 256) :: (payload.length % 2 ^ 32 % 256) :: m0 :: m1 :: m2 :: m3 :: (maskPayload [m0, m1, m2, m3] payload ++ rest)) = rest := by
          rw [(by omega : (payload.length / 2 ^ 32 * 2 ^ 32 + payload.length % 2 ^ 32) = payload.length)]
          have hsplit : B0 :: 255 :: (payload.length / 2 ^ 32 / 2 ^ 24 % 256) :: (payload.length / 2 ^ 32 / 2 ^ 16 % 256) :: (payload.length / 2 ^ 32 / 2 ^ 8 % 256) :: (payload.length / 2 ^ 32 % 256) :: (payload.length % 2 ^ 32 / 2 ^ 24 % 256) :: (payload.length % 2 ^ 32 / 2 ^ 16 % 256) :: (payload.length % 2 ^ 32 / 2 ^ 8 % 256) :: (payload.length % 2 ^ 32 % 256) :: m0 :: m1 :: m2 :: m3 :: (maskPayload [m0, m1, m2, m3] payload ++ rest) =
              ([B0, 255, (payload.length / 2 ^ 32 / 2 ^ 24 % 256), (payload.length / 2 ^ 32 / 2 ^ 16 % 256), (payload.length / 2 ^ 32 / 2 ^ 8 % 256), (payload.length / 2 ^ 32 % 256), (payload.length % 2 ^ 32 / 2 ^ 24 % 256), (payload.length % 2 ^ 32 / 2 ^ 16 % 256), (payload.length % 2 ^ 32 / 2 ^ 8 % 256), (payload.length % 2 ^ 32 % 256), m0, m1, m2, m3] ++ maskPayload [m0, m1, m2, m3] payload) ++ rest := by simp
          rw [hsplit, List.drop_left' (by simp [List.length_append, maskPayload_length] <;> omega)]
        have h3 : List.take 4 (List.drop (6 + 8 - 4) (B0 :: 255 :: (payload.length / 2 ^ 32 / 2 ^ 24 % 256) :: (payload.length / 2 ^ 32 / 2 ^ 16 % 256) :: (payload.length / 2 ^ 32 / 2 ^ 8 % 256) :: (payload.length / 2 ^ 32 % 256) :: (payload.length % 2 ^ 32 / 2 ^ 24 % 256) :: (payload.length % 2 ^ 32 / 2 ^ 16 % 256) :: (payload.length % 2 ^ 32 / 2 ^ 8 % 256) :: (payload.length % 2 ^ 32 % 256) :: m0 :: m1 :: m2 :: m3 :: (maskPayload [m0, m1, m2, m3] payload ++ rest))) = [m0, m1, m2, m3] := by
          have hsplit : B0 :: 255 :: (payload.length / 2 ^ 32 / 2 ^ 24 % 256) :: (payload.length / 2 ^ 32 / 2 ^ 16 % 256) :: (payload.length / 2 ^ 32 / 2 ^ 8 % 256) :: (payload.length / 2 ^ 32 % 256) :: (payload.length % 2 ^ 32 / 2 ^ 24 % 256) :: (payload.length % 2 ^ 32 / 2 ^ 16 % 256) :: (payload.length % 2 ^ 32 / 2 ^ 8 % 256) :: (payload.length % 2 ^ 32 % 256) :: m0 :: m1 :: m2 :: m3 :: (maskPayload [m0, m1, m2, m3] payload ++ rest) =
              [B0, 255, (payload.length / 2 ^ 32 / 2 ^ 24 % 256), (payload.length / 2 ^ 32 / 2 ^ 16 % 256), (payload.length / 2 ^ 32 / 2 ^ 8 % 256), (payload.length / 2 ^ 32 % 256), (payload.length % 2 ^ 32 / 2 ^ 24 % 256), (payload.length % 2 ^ 32 / 2 ^ 16 % 256), (payload.length % 2 ^ 32 / 2 ^ 8 % 256), (payload.length % 2 ^ 32 % 256)] ++
                ([m0, m1, m2, m3] ++ (maskPayload [m0, m1, m2, m3] payload ++ rest)) := by simp
          rw [(by norm_num : (6 + 8 - 4 : Nat) = 10), hsplit, List.drop_left' (by simp),
            List.take_left' (by simp)]
        have e2' : ¬((maskPayload [m0, m1, m2, m3] payload ++ rest).length + 1 + 1 + 1 + 1 + 1 + 1 + 1 + 1 + 1 + 1 + 1 + 1 + 1 + 1 < 6 + 127) := by
          simp [List.length_append, maskPayload_length]
          omega
        have e5' : ¬((B0 :: 255 :: (payload.length / 2 ^ 32 / 2 ^ 24 % 256) :: (payload.length / 2 ^ 32 / 2 ^ 16 % 256) :: (payload.length / 2 ^ 32 / 2 ^ 8 % 256) :: (payload.length / 2 ^ 32 % 256) :: (payload.length % 2 ^ 32 / 2 ^ 24 % 256) :: (payload.length % 2 ^ 32 / 2 ^ 16 % 256) :: (payload.length % 2 ^ 32 / 2 ^ 8 % 256) :: (payload.length % 2 ^ 32 % 256) :: m0 :: m1 :: m2 :: m3 :: (maskPayload [m0, m1, m2, m3] payload ++ rest)).length < 6 + 8 + (payload.length / 2 ^ 32 * 2 ^ 32 + payload.length % 2 ^ 32)) := by
          simp only [List.length_cons, List.length_append, maskPayload_length]
          omega
        simp only [extractFrameM, List.length_cons, List.getElem?_cons_zero,
          List.getElem?_cons_succ]
        rw [if_neg (by omega)]
        simp only [hB0a, hB0b, hB0c, ne_eq, not_true_eq_false, not_false_eq_true,
          if_neg hopval, if_neg hctl2, (by decide : (255 : Nat) >>> 7 = 1),
          (by norm_num : (255 : Nat) % 128 = 127),
          (by norm_num : ((127 : Nat) = 126) = False),
          eq_true (show (1 : Nat) ≠ 0 by omega),
          (by norm_num : ((1 : Nat) = 0) = False),
          true_and, false_and, and_true, and_false, or_self, false_or, or_false,
          eq_self_iff_true, not_true, if_true, if_false, eq_false e2', hr32a, hr32b, finishExtract,
          eq_false e5', h3, h1, maskPayload_maskPayload, h2]
end WS

namespace WS

theorem processFrame3_buffer (st : ConnSt) (fin : Bool) (opcode : Nat)
    (payload pmask : List Nat) :
    ((processFrame3 st fin opcode payload pmask).1).buffer = st.buffer := by
  unfold processFrame3 processCloseFrame
  repeat' split
  all_goals simp

theorem finishExtract_rest (buf : List Nat) (fin : Bool) (opcode hasMask : Nat)
    (ls? : Option (Nat × Nat)) (f : Bool) (o : Nat) (p r : List Nat)
    (h : finishExtract buf fin opcode hasMask ls? = some (.frame f o p r))
    (hpos : ∀ ls ∈ ls?, 0 < ls.2) : r.length < buf.length := by
  match ls? with
  | none => simp [finishExtract] at h
  | some ls =>
    simp only [finishExtract] at h
    split at h
    · simp at h
    · rename_i hlen
      simp only [Option.some.injEq, RawOut.frame.injEq] at h
      obtain ⟨-, -, -, h4⟩ := h
      have hp := hpos ls (by simp)
      rw [← h4]
      simp only [List.length_drop]
      omega

theorem extractFrameM_frame_rest (server : Bool) (buf : List Nat) (f : Bool)
    (o : Nat) (p r : List Nat)
    (h : extractFrameM server buf = some (.frame f o p r)) :
    r.length < buf.length := by
  match buf with
  | [] => simp [extractFrameM] at h
  | [b] => simp [extractFrameM] at h
  | b0 :: b1 :: t =>
    have hlen2 : ¬((b0 :: b1 :: t).length < 2) := by simp
    simp only [extractFrameM, List.getElem?_cons_zero, List.getElem?_cons_succ,
      if_neg hlen2] at h
    repeat' split at h
    all_goals try simp at h
    all_goals try (exfalso; revert h; simp [finishExtract]; done)
    all_goals try
      (refine finishExtract_rest _ _ _ _ _ _ _ _ _ h ?_
       intro ls hls
       simp only [Option.mem_def, Option.some.injEq] at hls
       subst hls
       norm_num
       done)
    all_goals
      (rcases hr : readUInt16BE (b0 :: b1 :: t) 2 with _ | v
       · rw [hr] at h
         simp [finishExtract] at h
       · rw [hr] at h
         simp only [Option.map_some'] at h
         refine finishExtract_rest _ _ _ _ _ _ _ _ _ h ?_
         intro ls hls
         simp only [Option.mem_def, Option.some.injEq] at hls
         subst hls
         norm_num)

end WS

namespace WS

theorem extractFrameSt_shrink (st : ConnSt) (pmask : List Nat) (st' : ConnSt)
    (h : extractFrameSt st pmask = (st', some true)) :
    st'.buffer.length < st.buffer.length := by
  unfold extractFrameSt at h
  rcases he : extractFrameRaw st.server st.buffer with _ | _ | ⟨fin, op, p, r⟩ <;>
    rw [he] at h
  · simp at h
  · simp at h
  · simp only [Prod.mk.injEq] at h
    obtain ⟨h1, -⟩ := h
    have hb : st'.buffer = r := by
      rw [← h1, processFrame3_buffer]
    have hm : extractFrameM st.server st.buffer = some (.frame fin op p r) := by
      have hs := extractFrameM_isSome st.server st.buffer
      rcases ho : extractFrameM st.server st.buffer with _ | v
      · rw [ho] at hs
        simp at hs
      · unfold extractFrameRaw at he
        rw [ho] at he
        simp at he
        rw [he]
    rw [hb]
    exact extractFrameM_frame_rest st.server st.buffer fin op p r hm

/-- The `while ((temp = this.extractFrame()) === true) {}` loop of `doRead`:
repeatedly extract and process frames until extraction reports need-more-data
(`none`) or a protocol error (`some false`). -/
def extractLoop (st : ConnSt) (pmask : List Nat) : ConnSt × Option Bool :=
  match h : extractFrameSt st pmask with
  | (st', some true) => extractLoop st' pmask
  | (st', some false) => (st', some false)
  | (st', none) => (st', none)
termination_by st.buffer.length
decreasing_by exact extractFrameSt_shrink st pmask st' h

/-- `Connection.doRead` (lines 224-245) for a connection past its handshake:
append the transport chunk to the receive buffer, run the extraction loop,
then close with 1002 on a protocol error, or with 1009 when the buffer has
outgrown `maxBufferLength`.  In the CONNECTING state `doRead` instead
attempts `readHandshake`, which is not modelled here; the state is returned
unchanged in that case. -/
def doRead (maxBufLen : Nat) (st : ConnSt) (chunk pmask : List Nat) : ConnSt :=
  let st1 := { st with buffer := st.buffer ++ chunk }
  if st1.readyState = 0 then st1
  else if st1.readyState ≠ 3 then
    let r := extractLoop st1 pmask
    if r.2 = some false then closeConn r.1 1002 [] pmask
    else if maxBufLen < r.1.buffer.length then closeConn r.1 1009 [] pmask
    else r.1
  else st1

end WS

namespace WS

/-! ## Connection lifetime (`close`, `processFrame` opcode 8, `onclose`)

A reduced view of the `Connection` lifecycle tracking only `readyState` and
`close` emissions, with one step per close-relevant source event. -/

/-- Close-relevant lifecycle events of a `Connection`:
`handshakeOk` = `readHandshake` succeeds (line 310), `localClose` = a
`close(code, reason)` call, `peerCloseFrame` = a close frame is processed,
`socketClose` = the socket's `close`/`finish` listener (`onclose`) runs. -/
inductive LifeEv : Type
  | handshakeOk : LifeEv
  | localClose : LifeEv
  | peerCloseFrame : LifeEv
  | socketClose : LifeEv
deriving Repr, DecidableEq

/-- One lifecycle step: the next `readyState` and the number of `close`
events emitted, following the corresponding source fragments. -/
def lifeStep (s : Nat) (e : LifeEv) : Nat × Nat :=
  match e with
  | .handshakeOk =>
    -- doRead runs readHandshake only in CONNECTING; success sets OPEN
    if s = 0 then (1, 0) else (s, 0)
  | .localClose =>
    -- close(): OPEN → write close frame, CLOSING; else if not CLOSED →
    -- socket.end(), CLOSED; in all cases emit close
    if s = 1 then (2, 1) else (3, 1)
  | .peerCloseFrame =>
    -- processFrame opcode 8: CLOSING → socket.end() (state unchanged);
    -- OPEN → processCloseFrame: reply, CLOSED, emit close; else ignore
    if s = 2 then (2, 0) else if s = 1 then (3, 1) else (s, 0)
  | .socketClose =>
    -- onclose: emit close(1006) iff CONNECTING or OPEN; always CLOSED
    (3, if s = 0 ∨ s = 1 then 1 else 0)

/-- Run a lifecycle trace: final `readyState` and total `close` emissions. -/
def runLife : Nat → List LifeEv → Nat × Nat
  | s, [] => (s, 0)
  | s, e :: t =>
    let r := lifeStep s e
    let r2 := runLife r.1 t
    (r2.1, r.2 + r2.2)

/-- A trace in which `close()` is only ever called while the connection is
CONNECTING or OPEN (never on an already CLOSING or CLOSED connection). -/
def okTrace : Nat → List LifeEv → Bool
  | _, [] => true
  | s, e :: t =>
    (if e = .localClose then decide (s = 0 ∨ s = 1) else true) &&
      okTrace (lifeStep s e).1 t

/-! ## Default subprotocol selector (`Server._buildSelectProtocol`,
`SocketApp` constructor)

The source iterates the offered-protocol array with `for (const protocol in
protocols)`, which yields the array's index keys `"0"`, `"1"`, … as strings,
and looks those up in the allow-list. -/

/-- The selector built by `_buildSelectProtocol(validProtocols)`: for each
index key of the offered array (a decimal string), return it if it occurs in
the allow-list; otherwise `undefined`. -/
def selectProtocolDefault (validProtocols : List String)
    (protocols : Option (List String)) : Option String :=
  let keys := (List.range (match protocols with | none => 0 | some l => l.length)).map
    (fun i => toString i)
  keys.find? (fun k => validProtocols.contains k)

/-! ## Sign dispatcher (`SocketApp` constructor, text listener)

The listener parses the inbound text with `JSON.parse` inside `try`,
destructures `{sign, data}` (throwing on `null`), looks up the chain for
`sign` with fallback to `"unknow"`, and runs it with a shared-cursor `next`
closure; the `catch` runs the `"noJSON"` chain with the raw string. -/

/-- A JS value passed to a handler: the raw text (in the catch path) or the
parsed `data`. -/
inductive DV : Type
  | str (s : String) : DV
  | other (n : Nat) : DV

/-- Outcome of `JSON.parse` on the inbound text together with the
destructuring of `{sign, data}`: the text is not JSON (`JSON.parse` threw),
it parsed to `null` (destructuring `null` throws a `TypeError`), or it
parsed to a non-null value with an optional string `sign` field. -/
inductive JsParse : Type
  | notJson : JsParse
  | jnull : JsParse
  | jval (sign : Option String) (data : DV) : JsParse

/-- `Map.get` on the sign registry (keys are unique). -/
def lookupSigns (signs : List (String × List (DV → Bool))) (tag : String) :
    Option (List (DV → Bool)) :=
  (signs.find? (fun p => p.1 = tag)).map Prod.snd

/-- The shared-cursor `next` closure: starting at index `i`, invoke `cbs[i]`
and continue with `i + 1` only when the handler calls `next()` (modelled as
the handler returning `true`).  Returns the indices invoked, in order. -/
def runChainFrom (cbs : List (DV → Bool)) (v : DV) (i : Nat) : List Nat :=
  if h : i < cbs.length then
    i :: (if (cbs.get ⟨i, h⟩) v then runChainFrom cbs v (i + 1) else [])
  else []
termination_by cbs.length - i

/-- How many handlers of a chain run: each handler runs, and its successor
runs only when it calls `next()`. -/
def chainCount : List (DV → Bool) → DV → Nat
  | [], _ => 0
  | c :: t, v => 1 + (if c v then chainCount t v else 0)

/-- The text listener's routing: which chain ran (`"noJSON"`, the parsed
sign, or `"unknow"`) and the indices of the handlers it invoked; `none` when
the selected chain is unregistered (`if (!cbs) return`). -/
def dispatch (inp : JsParse) (raw : String)
    (signs : List (String × List (DV → Bool))) : Option (String × List Nat) :=
  match inp with
  | .notJson =>
    match lookupSigns signs "noJSON" with
    | none => none
    | some cbs => some ("noJSON", runChainFrom cbs (.str raw) 0)
  | .jnull =>
    -- JSON.parse succeeded with null; destructuring throws, landing in catch
    match lookupSigns signs "noJSON" with
    | none => none
    | some cbs => some ("noJSON", runChainFrom cbs (.str raw) 0)
  | .jval sign d =>
    match (match sign with | some s => lookupSigns signs s | none => none) with
    | some cbs => some (sign.getD "unknow", runChainFrom cbs d 0)
    | none =>
      match lookupSigns signs "unknow" with
      | some cbs => some ("unknow", runChainFrom cbs d 0)
      | none => none

/-! ## Completeness of a buffered frame, from the spec's decoding steps -/

/-- Modelled from the spec's words (§4.1 Decoding, steps 1-6): the buffer
contains all bytes of one complete frame — two header bytes, the resolved
extended length field (126 → 2-byte u16, 127 → 8-byte u64), the 4-byte mask
key when the mask bit is set, and the full payload.  Used only to compare
`extractFrame`'s need-more-data answer against the spec's notion of a
complete frame. -/
def specCompleteFrame (buf : List Nat) : Bool :=
  if buf.length < 2 then false else
  let B1 := buf.getD 1 0
  let hasMask := B1 >>> 7
  let len0 := B1 % 128
  let start0 := if hasMask ≠ 0 then 6 else 2
  if len0 = 126 then
    match readUInt16BE buf 2 with
    | none => false
    | some l => decide (start0 + 2 + l ≤ buf.length)
  else if len0 = 127 then
    match readUInt32BE buf 2, readUInt32BE buf 6 with
    | some hi, some lo => decide (start0 + 8 + (hi * 2 ^ 32 + lo) ≤ buf.length)
    | _, _ => false
  else decide (start0 + len0 ≤ buf.length)

end WS

namespace WS

/-! ## Helper lemmas for the claim theorems -/

/-- Cons-structured version of the shared-cursor chain runner. -/
def runChainSimple : List (DV → Bool) → DV → List Nat
  | [], _ => []
  | c :: t, v => 0 :: (if c v then (runChainSimple t v).map (· + 1) else [])

theorem runChainFrom_drop (cbs : List (DV → Bool)) (v : DV) (i : Nat) :
    runChainFrom cbs v i = (runChainSimple (cbs.drop i) v).map (· + i) := by
  by_cases h : i < cbs.length
  · rw [runChainFrom, dif_pos h]
    have hd : cbs.drop i = cbs.get ⟨i, h⟩ :: cbs.drop (i + 1) :=
      List.drop_eq_getElem_cons h
    rw [hd, runChainSimple]
    by_cases hc : cbs.get ⟨i, h⟩ v
    · rw [if_pos hc, if_pos hc, runChainFrom_drop cbs v (i + 1)]
      simp [List.map_map, Function.comp]
      intro a ha
      omega
    · rw [if_neg hc, if_neg hc]
      simp
  · rw [runChainFrom, dif_neg h]
    rw [List.drop_eq_nil_of_le (by omega)]
    rfl
termination_by cbs.length - i

theorem runChainSimple_range (cbs : List (DV → Bool)) (v : DV) :
    runChainSimple cbs v = List.range (chainCount cbs v) := by
  induction cbs with
  | nil => rfl
  | cons c t ih =>
    rw [runChainSimple, chainCount]
    by_cases hc : c v
    · rw [if_pos hc, if_pos hc, ih]
      rw [(by omega : 1 + chainCount t v = chainCount t v + 1), List.range_succ_eq_map]
    · rw [if_neg hc, if_neg hc]
      rfl

theorem runChainFrom_range (cbs : List (DV → Bool)) (v : DV) :
    runChainFrom cbs v 0 = List.range (chainCount cbs v) := by
  rw [runChainFrom_drop, List.drop_zero, runChainSimple_range]
  simp

end WS

namespace WS

theorem extractLoop_stop (st : ConnSt) (pmask : List Nat)
    (h : (extractFrameSt st pmask).2 ≠ some true) :
    extractLoop st pmask = extractFrameSt st pmask := by
  rw [extractLoop.eq_def]
  rcases he : extractFrameSt st pmask with ⟨st', r⟩
  rcases r with - | b
  · rfl
  · rcases b with - | -
    · rfl
    · rw [he] at h
      simp at h

end WS

namespace WS

theorem extract_wrong_mask (server fin : Bool) (opcode : Nat)
    (payload mask rest : List Nat)
    (hop : opcode = 0 ∨ opcode = 1 ∨ opcode = 2 ∨ opcode = 8 ∨ opcode = 9 ∨ opcode = 10)
    (hctl : 8 ≤ opcode → fin = true) :
    extractFrameM server (frameBytes fin opcode (!server) mask payload ++ rest) =
      some .protoError := by
  have hople : opcode ≤ 10 := by rcases hop with h | h | h | h | h | h <;> omega
  have hopval : ¬(opcode ≠ 0 ∧ opcode ≠ 1 ∧ opcode ≠ 2 ∧ opcode ≠ 8 ∧ opcode ≠ 9 ∧
      opcode ≠ 10) := by
    rintro ⟨a, b, c, d, e, f⟩
    rcases hop with h | h | h | h | h | h <;> contradiction
  have hctl2 : ¬(8 ≤ opcode ∧ ¬fin = true) := fun ⟨h8, hf⟩ => hf (hctl h8)
  set B0 := (if fin then 128 else 0) + opcode with hB0def
  have hB0a : B0 >>> 4 % 8 = 0 := by
    rw [hB0def, Nat.shiftRight_eq_div_pow]
    cases fin <;> simp <;> omega
  have hB0c : B0 % 16 = opcode := by
    rw [hB0def]
    cases fin <;> simp <;> omega
  have hB0f : B0 >>> 4 = if fin = true then 8 else 0 := by
    rw [hB0def, Nat.shiftRight_eq_div_pow]
    cases fin <;> simp <;> omega
  have hctl3 : ¬(8 ≤ opcode ∧ ¬B0 >>> 4 = 8) := by
    rintro ⟨h8, hne⟩
    rw [hB0f, hctl h8] at hne
    simp at hne
  have hlen7 : (if payload.length < 126 then payload.length
      else if payload.length < 65536 then 126 else 127) < 128 := by
    split
    · omega
    · split <;> omega
  cases server
  · -- client receives a masked frame: protocol error
    simp only [Bool.not_false]
    have hbuf : frameBytes fin opcode true mask payload ++ rest =
        B0 :: (128 + (if payload.length < 126 then payload.length
          else if payload.length < 65536 then 126 else 127)) ::
          (((if payload.length < 126 then []
             else if payload.length < 65536 then writeUInt16BE payload.length
             else writeUInt32BE (payload.length / 2 ^ 32) ++
               writeUInt32BE (payload.length % 2 ^ 32)) ++ mask) ++
            (maskPayload mask payload ++ rest)) := by
      simp [frameBytes, generateMetaData, hB0def, List.append_assoc]
    rw [hbuf]
    have hmb : (128 + (if payload.length < 126 then payload.length
        else if payload.length < 65536 then 126 else 127)) >>> 7 = 1 := by
      rw [Nat.shiftRight_eq_div_pow]
      omega
    simp only [extractFrameM, List.length_cons, List.getElem?_cons_zero,
      List.getElem?_cons_succ]
    rw [if_neg (by omega)]
    simp only [hB0a, hB0c, ne_eq, not_true_eq_false, not_false_eq_true,
      if_neg hopval, if_neg hctl2, beq_iff_eq, eq_false hctl3, hmb, eq_self_iff_true, not_true,
      if_false,
      true_and, false_and, and_true, and_false, or_self, false_or, or_false, if_true]
    rw [if_pos (by norm_num)]
  · -- server receives an unmasked frame: protocol error
    simp only [Bool.not_true]
    have hbuf : frameBytes fin opcode false mask payload ++ rest =
        B0 :: (0 + (if payload.length < 126 then payload.length
          else if payload.length < 65536 then 126 else 127)) ::
          (((if payload.length < 126 then []
             else if payload.length < 65536 then writeUInt16BE payload.length
             else writeUInt32BE (payload.length / 2 ^ 32) ++
               writeUInt32BE (payload.length % 2 ^ 32)) ++ []) ++
            (payload ++ rest)) := by
      simp [frameBytes, generateMetaData, hB0def, List.append_assoc]
    rw [hbuf]
    have hmb : (0 + (if payload.length < 126 then payload.length
        else if payload.length < 65536 then 126 else 127)) >>> 7 = 0 := by
      rw [Nat.shiftRight_eq_div_pow]
      omega
    simp only [extractFrameM, List.length_cons, List.getElem?_cons_zero,
      List.getElem?_cons_succ]
    rw [if_neg (by omega)]
    simp only [hB0a, hB0c, ne_eq, not_true_eq_false, not_false_eq_true,
      if_neg hopval, if_neg hctl2, beq_iff_eq, eq_false hctl3, hmb, eq_self_iff_true, not_true,
      if_false,
      true_and, false_and, and_true, and_false, or_self, false_or, or_false, if_true]

end WS

namespace WS

/-! ## Claim C1: a first text frame -/

/-- C1: the claim fails on `Connection.processFrame`.  A final text frame
(opcode 1, fin) arriving while no assembly is in progress is rejected
(`false`, which `doRead` turns into close 1002) instead of emitting `text`:
the guard `opcode !== 0 && this.frameBuffer !== null` is true because the
slot holds `undefined`, which is not strictly equal to `null`.
`AppConnection.processFrame`, whose guard uses truthiness and whose slot
starts as `''`, emits the decoded text exactly as the claim states. -/
theorem text_frame_bug_eval :
    processFrame3 ⟨true, 1, [], .undef, [], [], false⟩ true 1
        [72, 101, 108, 108, 111] [] =
      (⟨true, 1, [], .undef, [], [], false⟩, false) ∧
    processFrameApp ⟨true, 1, [], .strv [], [], [], false⟩ true 1
        [72, 101, 108, 108, 111] [] =
      (⟨true, 1, [], .strv [], [], [.text [72, 101, 108, 108, 111]], false⟩,
        true) := by
  refine ⟨rfl, ?_⟩
  have hd : utf8Decode [72, 101, 108, 108, 111] = [72, 101, 108, 108, 111] := by
    simp [utf8Decode_step1, utf8Decode_nil]
  simp [processFrameApp, FBV.truthy, hd]

/-! ## Claim C2: a continuation frame arriving first -/

/-- C2: the claim fails on `Connection.processFrame`.  A continuation frame
(opcode 0) arriving while the assembly slot is empty is not treated as a
protocol error: the guard `opcode === 0 && this.frameBuffer === null` is
false because the slot holds `undefined`, so the frame starts a binary
message (`binary` + data + `end` events) and `true` is returned.
`AppConnection.processFrame` rejects it as the claim states. -/
theorem continuation_first_bug_eval :
    processFrame3 ⟨true, 1, [], .undef, [], [], false⟩ true 0 [1, 2] [] =
      (⟨true, 1, [], .undef, [],
        [.binaryStart, .binaryData [1, 2], .binaryEnd], false⟩, true) ∧
    processFrameApp ⟨true, 1, [], .strv [], [], [], false⟩ true 0 [1, 2] [] =
      (⟨true, 1, [], .strv [], [], [], false⟩, false) := by
  exact ⟨rfl, rfl⟩

/-! ## Claim C3: the default subprotocol selector -/

/-- C3: the claim fails.  `_buildSelectProtocol`'s `for (const protocol in
protocols)` iterates the offered array's index keys `"0"`, `"1"`, …, not its
elements, so with allow-list `["superchat"]` and offer `["superchat"]` the
selector returns `undefined` rather than `"superchat"`; conversely an
allow-list containing the literal string `"0"` selects the "protocol"
`"0"` whatever the client offered. -/
theorem select_protocol_forin_bug_eval :
    selectProtocolDefault ["superchat"] (some ["superchat"]) = none ∧
    selectProtocolDefault ["superchat"] (some ["superchat"]) ≠ some "superchat" ∧
    selectProtocolDefault ["0"] (some ["anything"]) = some "0" := by
  exact ⟨rfl, by decide, rfl⟩

/-! ## Claim C4: need-more-data versus a complete buffered frame -/

/-- C4 (counterexample): a complete masked frame whose length field is 126
(here: u16 length 0, so 8 bytes in total) is answered with need-more-data,
because `extractFrame` checks `buffer.length < start + len` with `len` still
holding the raw 7-bit value 126 before resolving the extended length. -/
theorem extract_nonminimal_counterexample :
    specCompleteFrame [130, 254, 0, 0, 1, 2, 3, 4] = true ∧
    extractFrameM true [130, 254, 0, 0, 1, 2, 3, 4] = some .needMore := by
  decide

/-! ## Claim C6: pong payload -/

/-- C6 (counterexample): `processFrame` answers a ping via
`payload.toString()` and `createPongFrame`, which re-encodes the decoded
string; a ping payload that is not valid UTF-8, here the single byte 255,
is echoed as the 3-byte U+FFFD replacement sequence 239 191 189, not as
itself. -/
theorem ping_pong_payload_counterexample :
    (processFrame3 ⟨true, 1, [], .undef, [], [], false⟩ true 9 [255] []).1.writes =
      [[138, 3, 239, 191, 189]] ∧
    createPongFrame (utf8Decode [255]) false [] ≠ [138, 1, 255] := by
  have hd : utf8Decode [255] = [0xFFFD] := by
    simp [utf8Decode_cons, utf8DecodeStep, utf8Decode_nil]
  constructor
  · simp [processFrame3, hd, createPongFrame, frameBytes, generateMetaData,
      utf8Encode, utf8EncodeChar]
  · rw [hd]
    simp [createPongFrame, frameBytes, generateMetaData, utf8Encode, utf8EncodeChar]

/-! ## Claim C7: exactly one close event -/

/-- C7 (counterexample): calling `close()` twice emits `close` twice —
`Connection.close` ends with an unconditional `this.emit('close', code,
reason)`, with no guard against an already CLOSING/CLOSED state.  After
`handshakeOk, localClose, localClose, socketClose` the model has emitted 2
close events, not 1. -/
theorem double_close_counterexample :
    runLife 0 [.handshakeOk, .localClose, .localClose, .socketClose] = (3, 2) ∧
    (runLife 0 [.handshakeOk, .localClose, .localClose, .socketClose]).2 ≠ 1 := by
  decide

/-! ## Claim C10: totality of extractFrame -/

/-- C10: `extractFrame` is total — for every buffer content every indexed
access and multi-byte read is in bounds (the checked model returns `none`
exactly when one is not), so it always answers need-more-data,
protocol-error, or a parsed frame. -/
theorem extractFrame_total (server : Bool) (buf : List Nat) :
    ∃ r : RawOut, extractFrameM server buf = some r := by
  have h := extractFrameM_isSome server buf
  rcases ho : extractFrameM server buf with - | v
  · rw [ho] at h
    simp at h
  · exact ⟨v, rfl⟩

end WS

namespace WS

/-! ## Claims C4 and C5: extraction of complete frames -/

/-- C4: corrected.  Whenever the buffer starts with one complete wire frame
(as produced by `frameBytes` with the role-appropriate mask bit, control
frames final, a 4-byte mask key), `extractFrame` consumes exactly that
frame's bytes — the remainder of the buffer is precisely the bytes after the
frame — and hands `(fin, opcode, payload)` to `processFrame`; and whenever
it answers need-more-data the connection state, in particular the buffer, is
left untouched.  The claim's converse — need-more-data only when the buffer
lacks bytes of the frame — is false (see the counterexample): for a length
field of 126 or 127 the availability pre-check runs with the raw 7-bit
value before the extended length is read, so a complete short
extended-length frame is answered with need-more-data. -/
theorem extract_complete_minimal_frame (st : ConnSt) (pmask : List Nat)
    (fin : Bool) (opcode : Nat) (payload mask rest : List Nat)
    (hop : opcode = 0 ∨ opcode = 1 ∨ opcode = 2 ∨ opcode = 8 ∨ opcode = 9 ∨ opcode = 10)
    (hctl : 8 ≤ opcode → fin = true)
    (hmask : mask.length = 4)
    (hlen : payload.length < 2 ^ 53)
    (hbuf : st.buffer = frameBytes fin opcode st.server mask payload ++ rest) :
    extractFrameSt st pmask =
      ((processFrame3 { st with buffer := rest } fin opcode payload pmask).1,
        some (processFrame3 { st with buffer := rest } fin opcode payload pmask).2) ∧
    ∀ st2 : ConnSt, (extractFrameSt st2 pmask).2 = none →
      (extractFrameSt st2 pmask).1 = st2 := by
  constructor
  · have h := extract_frameBytes st.server fin opcode payload mask rest hop hctl hmask hlen
    unfold extractFrameSt extractFrameRaw
    rw [hbuf, h]
    rfl
  · intro st2 h2
    unfold extractFrameSt at h2 ⊢
    rcases he : extractFrameRaw st2.server st2.buffer with - | - | ⟨f, o, p, r⟩ <;>
      rw [he] at h2 <;> first | rfl | simp at h2

/-- C4 witness: a one-byte masked binary frame buffered on an OPEN
server-role connection is consumed exactly (here its processing yields
`false` — the first-data-frame defect of C1 — which is immaterial to
extraction). -/
theorem extract_complete_minimal_frame_witness :
    extractFrameSt ⟨true, 1, [130, 129, 0, 0, 0, 0, 5], .undef, [], [], false⟩ [] =
      (⟨true, 1, [], .undef, [], [], false⟩, some false) ∧
    (∀ st2 : ConnSt, (extractFrameSt st2 []).2 = none →
      (extractFrameSt st2 []).1 = st2) := by
  have h := extract_complete_minimal_frame
    ⟨true, 1, [130, 129, 0, 0, 0, 0, 5], .undef, [], [], false⟩ [] true 2 [5]
    [0, 0, 0, 0] [] (by norm_num) (fun _ => rfl) rfl (by norm_num) (by decide)
  refine ⟨?_, h.2⟩
  rw [h.1]
  rfl

/-- C5: for any payload, a masked binary frame built by `createBinaryFrame`
(masked, first, fin) parses back on a server-role connection to fin, opcode
2, and the original payload bytes; and a frame whose mask bit contradicts
the sender's role — unmasked at a server, masked at a client — is rejected
as a protocol error. -/
theorem binary_mask_roundtrip (p mask rest : List Nat)
    (hmask : mask.length = 4) (hlen : p.length < 2 ^ 53) :
    extractFrameM true (createBinaryFrame p true true true mask ++ rest) =
      some (.frame true 2 p rest) ∧
    extractFrameM true (frameBytes true 2 false mask p ++ rest) = some .protoError ∧
    extractFrameM false (frameBytes true 2 true mask p ++ rest) = some .protoError := by
  refine ⟨?_, ?_, ?_⟩
  · have h := extract_frameBytes true true 2 p mask rest (by norm_num) (fun _ => rfl)
      hmask hlen
    simpa [createBinaryFrame] using h
  · have h := extract_wrong_mask true true 2 p mask rest (by norm_num) (fun _ => rfl)
    simpa using h
  · have h := extract_wrong_mask false true 2 p mask rest (by norm_num) (fun _ => rfl)
    simpa using h

/-- C5 witness: payload `[1, 2, 3]`, mask key `[4, 5, 6, 7]`, one trailing
byte left in the buffer. -/
theorem binary_mask_roundtrip_witness :
    extractFrameM true (createBinaryFrame [1, 2, 3] true true true [4, 5, 6, 7] ++ [9]) =
      some (.frame true 2 [1, 2, 3] [9]) ∧
    extractFrameM true (frameBytes true 2 false [4, 5, 6, 7] [1, 2, 3] ++ [9]) =
      some .protoError ∧
    extractFrameM false (frameBytes true 2 true [4, 5, 6, 7] [1, 2, 3] ++ [9]) =
      some .protoError :=
  binary_mask_roundtrip [1, 2, 3] [4, 5, 6, 7] [9] rfl (by norm_num)

/-! ## Claim C6, amended theorem -/

/-- C6: corrected.  A ping on an OPEN connection is answered with exactly
one write — the pong frame — and no event; but the pong carries
`payload.toString()` re-encoded, so its payload bytes equal the ping's
exactly when the ping payload is valid UTF-8 (see the counterexample for an
invalid one).  Stated for a server-role connection (unmasked pong) and a
ping payload that is the UTF-8 encoding of scalar values `cs`. -/
theorem ping_pong_preserves_payload (st : ConnSt) (cs pmask : List Nat)
    (hopen : st.readyState = 1) (hsrv : st.server = true)
    (hval : ∀ c ∈ cs, ValidCP c) :
    processFrame3 st true 9 (utf8Encode cs) pmask =
      ({ st with writes := st.writes ++
          [generateMetaData true 10 false pmask (utf8Encode cs).length ++
            utf8Encode cs] }, true) := by
  have hd := utf8Decode_encode cs hval
  simp [processFrame3, hopen, hsrv, hd, createPongFrame, frameBytes]

/-- C6 witness: ping `"abc"` on an OPEN server connection is answered by the
single pong write `[138, 3, 97, 98, 99]` — header plus the unchanged payload
bytes — with the event log untouched. -/
theorem ping_pong_preserves_payload_witness :
    processFrame3 ⟨true, 1, [], .undef, [], [], false⟩ true 9 [97, 98, 99] [] =
      (⟨true, 1, [], .undef, [[138, 3, 97, 98, 99]], [], false⟩, true) :=
  ping_pong_preserves_payload ⟨true, 1, [], .undef, [], [], false⟩ [97, 98, 99] []
    rfl rfl (by
      intro c hc
      simp only [List.mem_cons, List.not_mem_nil, or_false] at hc
      rcases hc with rfl | rfl | rfl <;> exact ⟨by norm_num, by omega⟩)

end WS

namespace WS

/-! ## Claim C7: close emitted exactly once -/

/-- Once the lifecycle model is CLOSING after a local close, or CLOSED, a
trace that never calls `close()` again emits no further close events. -/
theorem runLife_closed (t : List LifeEv) : ∀ s, s = 2 ∨ s = 3 →
    okTrace s t = true → (runLife s t).2 = 0 := by
  induction t with
  | nil => intro s _ _; rfl
  | cons e t ih =>
    intro s hs hok
    simp only [okTrace, Bool.and_eq_true] at hok
    obtain ⟨h1, h2⟩ := hok
    rcases hs with hs | hs <;> subst hs <;> cases e <;>
      simp_all [runLife, lifeStep] <;>
      first
        | exact ih 2 (Or.inl rfl) h2
        | exact ih 3 (Or.inr rfl) h2

/-- From CONNECTING or OPEN, a well-behaved trace containing the socket
close ends with exactly one close emission. -/
theorem runLife_open (t : List LifeEv) : ∀ s, s = 0 ∨ s = 1 →
    okTrace s t = true → .socketClose ∈ t → (runLife s t).2 = 1 := by
  induction t with
  | nil => intro s _ _ hm; simp at hm
  | cons e t ih =>
    intro s hs hok hm
    simp only [okTrace, Bool.and_eq_true] at hok
    obtain ⟨h1, h2⟩ := hok
    rcases hs with hs | hs <;> subst hs <;> cases e <;>
      simp_all [runLife, lifeStep] <;>
      first
        | exact ih 0 (Or.inl rfl) h2 hm
        | exact ih 1 (Or.inr rfl) h2 hm
        | exact runLife_closed t 2 (Or.inl rfl) h2
        | exact runLife_closed t 3 (Or.inr rfl) h2

/-- C7: corrected.  `Connection.close` emits `close` unconditionally, so a
repeated `close()` call emits a second close event (see the counterexample).
The guarantee holds for lifetimes in which `close()` is only invoked while
the connection is CONNECTING or OPEN: starting from CONNECTING, such a trace
that includes the transport's close (`onclose`) emits exactly one close
event, whichever way the connection ends. -/
theorem close_once (t : List LifeEv) (hok : okTrace 0 t = true)
    (hm : .socketClose ∈ t) : (runLife 0 t).2 = 1 :=
  runLife_open t 0 (Or.inl rfl) hok hm

/-- C7 witness: handshake then transport loss — one close event. -/
theorem close_once_witness :
    okTrace 0 [.handshakeOk, .socketClose] = true ∧
    LifeEv.socketClose ∈ [LifeEv.handshakeOk, LifeEv.socketClose] ∧
    (runLife 0 [.handshakeOk, .socketClose]).2 = 1 :=
  ⟨by decide, by decide, close_once [.handshakeOk, .socketClose] (by decide) (by decide)⟩

end WS

namespace WS

/-! ## Claim C8: the receive-buffer bound -/

/-- C8: on a non-CLOSED, post-handshake connection, when a `doRead` pass
ends its extraction loop waiting for more data and the remaining buffer
exceeds the configured `maxBufferLength`, the connection is closed with code
1009: `doRead` hands the loop's state to `close(1009)`, the event log gains
exactly the `close(1009)` emission, and the connection is left CLOSING (or
CLOSED).  No payload-sized allocation happens for an oversized announced
length: a frame is only ever materialised by `extractFrame` after the full
announced byte count is buffered, and a need-more-data answer leaves the
state untouched (claim C4), so an announced 5 GiB length merely leaves the
short buffer in place until this 1009 close fires. -/
theorem doRead_buffer_bound (maxBufLen : Nat) (st : ConnSt) (chunk pmask : List Nat)
    (hrs : st.readyState = 1 ∨ st.readyState = 2)
    (hmore : (extractLoop { st with buffer := st.buffer ++ chunk } pmask).2 = none)
    (hbig : maxBufLen <
      (extractLoop { st with buffer := st.buffer ++ chunk } pmask).1.buffer.length) :
    doRead maxBufLen st chunk pmask =
      closeConn (extractLoop { st with buffer := st.buffer ++ chunk } pmask).1
        1009 [] pmask ∧
    (doRead maxBufLen st chunk pmask).events =
      (extractLoop { st with buffer := st.buffer ++ chunk } pmask).1.events ++
        [.closeEv 1009 []] ∧
    ((doRead maxBufLen st chunk pmask).readyState = 2 ∨
      (doRead maxBufLen st chunk pmask).readyState = 3) := by
  have h0 : ¬({ st with buffer := st.buffer ++ chunk } : ConnSt).readyState = 0 := by
    rcases hrs with h | h <;> simp [h]
  have h3 : ({ st with buffer := st.buffer ++ chunk } : ConnSt).readyState ≠ 3 := by
    rcases hrs with h | h <;> simp [h]
  have hne : ¬(extractLoop { st with buffer := st.buffer ++ chunk } pmask).2 =
      some false := by
    rw [hmore]
    simp
  have hd : doRead maxBufLen st chunk pmask =
      closeConn (extractLoop { st with buffer := st.buffer ++ chunk } pmask).1
        1009 [] pmask := by
    unfold doRead
    rw [if_neg h0, if_pos h3, if_neg hne, if_pos hbig]
  refine ⟨hd, ?_, ?_⟩
  · rw [hd]
    unfold closeConn
    split
    · simp
    · split <;> simp
  · rw [hd]
    unfold closeConn
    split
    · simp
    · split <;> simp_all

end WS

namespace WS

/-- C8 witness: limit 2, one chunk announcing a 126-style extended length
(`[130, 254, 0, 0]`): extraction waits for more data, the 4-byte buffer
exceeds the limit, and the connection closes with 1009 — one close frame
write `[136, 2, 3, 241]` and the `close(1009)` event, readyState CLOSING. -/
theorem doRead_buffer_bound_witness :
    doRead 2 ⟨true, 1, [], .undef, [], [], false⟩ [130, 254, 0, 0] [] =
      ⟨true, 2, [130, 254, 0, 0], .undef, [[136, 2, 3, 241]],
        [.closeEv 1009 []], false⟩ := by
  have hstop : extractLoop ⟨true, 1, [130, 254, 0, 0], .undef, [], [], false⟩ [] =
      (⟨true, 1, [130, 254, 0, 0], .undef, [], [], false⟩, none) := by
    rw [extractLoop_stop _ _ (by decide)]
    decide
  have hm : (extractLoop { (⟨true, 1, [], .undef, [], [], false⟩ : ConnSt) with
      buffer := [] ++ [130, 254, 0, 0] } []).2 = none := by
    show (extractLoop ⟨true, 1, [130, 254, 0, 0], .undef, [], [], false⟩ []).2 = none
    rw [hstop]
  have hb : 2 < (extractLoop { (⟨true, 1, [], .undef, [], [], false⟩ : ConnSt) with
      buffer := [] ++ [130, 254, 0, 0] } []).1.buffer.length := by
    show 2 < (extractLoop ⟨true, 1, [130, 254, 0, 0], .undef, [], [], false⟩
      []).1.buffer.length
    rw [hstop]
    decide
  have h := doRead_buffer_bound 2 ⟨true, 1, [], .undef, [], [], false⟩
    [130, 254, 0, 0] [] (Or.inl rfl) hm hb
  rw [h.1]
  show closeConn (extractLoop (⟨true, 1, [130, 254, 0, 0], .undef, [], [], false⟩ :
    ConnSt) []).1 1009 [] [] = _
  rw [hstop]
  rfl

end WS

namespace WS

/-! ## Claim C9: the sign dispatcher -/

/-- C9 (counterexample): the text `"null"` parses as JSON — `JSON.parse`
succeeds and yields `null` — yet the `noJSON` chain is invoked: the listener
then destructures `{sign, data}` from `null`, which throws a `TypeError`
inside the same `try`, and the `catch` runs the `noJSON` chain on the raw
string.  So "the noJSON chain is invoked when and only when the text fails
to parse as JSON" is false. -/
theorem dispatch_null_counterexample :
    dispatch .jnull "null" [("noJSON", [fun _ => true])] =
      some ("noJSON", [0]) := by
  have hl : lookupSigns [("noJSON", [fun _ => true])] "noJSON" =
      some [fun _ => true] := rfl
  simp only [dispatch, hl]
  rw [runChainFrom_range]
  rfl

/-- C9: corrected.  The catch-path chain `noJSON` runs when `JSON.parse`
throws and also when the text parses to JSON `null` (the destructuring
`TypeError` lands in the same `catch`; see the counterexample).  For a
successful non-null parse, the chain registered for the parsed sign runs,
with fallback to the `unknow` chain when the sign has no chain; in every
case the handlers invoked are exactly the first `chainCount` of the chain,
in registration order — index `i + 1` runs only when handler `i` called
`next()`. -/
theorem dispatch_routing (raw : String) (signs : List (String × List (DV → Bool)))
    (sign : String) (d : DV) :
    (∀ inp, inp = .notJson ∨ inp = .jnull →
      dispatch inp raw signs =
        (lookupSigns signs "noJSON").map
          (fun cbs => ("noJSON", List.range (chainCount cbs (.str raw))))) ∧
    (∀ cbs, lookupSigns signs sign = some cbs →
      dispatch (.jval (some sign) d) raw signs =
        some (sign, List.range (chainCount cbs d))) ∧
    (lookupSigns signs sign = none →
      dispatch (.jval (some sign) d) raw signs =
        (lookupSigns signs "unknow").map
          (fun cbs => ("unknow", List.range (chainCount cbs d)))) := by
  refine ⟨?_, ?_, ?_⟩
  · rintro inp (rfl | rfl) <;>
      · simp only [dispatch]
        rcases h : lookupSigns signs "noJSON" with - | cbs <;>
          simp [runChainFrom_range]
  · intro cbs hc
    simp only [dispatch, hc]
    rw [runChainFrom_range]
    rfl
  · intro hc
    simp only [dispatch, hc]
    rcases h : lookupSigns signs "unknow" with - | cbs <;> simp [runChainFrom_range]

/-- C9 witness: with `noJSON` holding one handler that calls `next()` and
`"a"` holding one that does not, JSON `null` routes to `noJSON`, sign `"a"`
routes to its chain, and an unregistered sign with no `unknow` chain is
dropped. -/
theorem dispatch_routing_witness :
    dispatch .jnull "x" [("noJSON", [fun _ => true]), ("a", [fun _ => false])] =
      some ("noJSON", [0]) ∧
    dispatch (.jval (some "a") (.other 1)) "x"
      [("noJSON", [fun _ => true]), ("a", [fun _ => false])] = some ("a", [0]) ∧
    dispatch (.jval (some "b") (.other 1)) "x"
      [("noJSON", [fun _ => true]), ("a", [fun _ => false])] = none := by
  obtain ⟨h1, h2, -⟩ := dispatch_routing "x"
    [("noJSON", [fun _ => true]), ("a", [fun _ => false])] "a" (.other 1)
  obtain ⟨-, -, h3⟩ := dispatch_routing "x"
    [("noJSON", [fun _ => true]), ("a", [fun _ => false])] "b" (.other 1)
  refine ⟨?_, ?_, ?_⟩
  · rw [h1 .jnull (Or.inr rfl)]
    rfl
  · rw [h2 [fun _ => false] rfl]
    rfl
  · rw [h3 rfl]
    rfl

end WS
